import Mathlib

/-
  Verification development for the browser-agentkit content-extraction core.

  The TypeScript source is shallowly embedded in Lean:
  * JavaScript `Map` objects are modelled as functions into `Option` (lookup
    semantics; `Map.has` is `Option.isSome` of the lookup).
  * JavaScript numbers holding node indices / backend ids are modelled as `Nat`
    (`0` plays the role of the falsy value), coordinates as `Int`.
  * `undefined`-able values are `Option`s.
  * The `visited`/`processed` guarded recursions of the source are modelled
    either with well-founded recursion on the set of not-yet-processed ids, or
    with an explicit fuel argument that is provably never exhausted on the
    inputs the source terminates on (each recursive step strictly consumes
    input); fuel is chosen so the embedding agrees with the source wherever the
    source terminates.
  * The instrumentation channel (chrome.debugger) is an opaque I/O boundary:
    its responses appear as explicit parameters (e.g. the content an iframe
    recursion would produce, or the outcome of a CDP request).
-/

/- ===================== Data model (src/types/cdp.ts) ===================== -/

/-- AXValue: `{type, value?}`; the `unknown` JS payload is modelled by its
string coercion (`String(value || '')`), with falsy payloads as `none`/`""`. -/
structure AxValue where
  type : String
  value : Option String
deriving DecidableEq, Repr

/-- AXProperty entry of `AxNode.properties`. -/
structure AxProperty where
  name : String
  value : AxValue
deriving DecidableEq, Repr

/-- Accessibility node, from `Accessibility.getFullAXTree`. -/
structure AxNode where
  nodeId : String
  ignored : Bool := false
  parentId : Option String := none
  childIds : Option (List String) := none
  backendDOMNodeId : Nat := 0
  role : Option AxValue := none
  name : Option AxValue := none
  description : Option AxValue := none
  value : Option AxValue := none
  properties : Option (List AxProperty) := none
deriving DecidableEq, Repr

/-- Bounding box / viewport rectangle in CSS pixels. -/
structure BoundingBox where
  x : Int
  y : Int
  width : Int
  height : Int
deriving DecidableEq, Repr

/-- Sparse side table `{index[], value[]}` of a DOMSnapshot node table. -/
structure SparseTable where
  index : List Nat
  value : List Nat
deriving DecidableEq, Repr

/-- Index-only side table `{index[]}`. -/
structure IndexTable where
  index : List Nat
deriving DecidableEq, Repr

/-- Columnar node table of one snapshot document (`NodeTreeSnapshot`). -/
structure NodeTreeSnapshot where
  parentIndex : List Int
  nodeType : List Int
  nodeName : List Nat
  nodeValue : List Nat
  backendNodeId : List Nat
  attributes : List (List Nat)
  textValue : SparseTable
  inputValue : SparseTable
  contentDocumentIndex : SparseTable
  shadowRootType : SparseTable
  inputChecked : IndexTable
  optionSelected : IndexTable
  isClickable : IndexTable
deriving DecidableEq, Repr

/-- Layout table of one snapshot document: node indices with computed styles. -/
structure LayoutTable where
  nodeIndex : List Nat
  styles : List (List Nat)
deriving DecidableEq, Repr

/-- Text-box table; only `layoutIndex` is consulted by the decoder. -/
structure TextBoxes where
  layoutIndex : List Int
deriving DecidableEq, Repr

/-- One document of a DOMSnapshot capture. -/
structure DocumentSnapshot where
  nodes : NodeTreeSnapshot
  layout : LayoutTable
  textBoxes : TextBoxes
deriving DecidableEq, Repr

/-- A full `DOMSnapshot.captureSnapshot` result: documents plus string pool. -/
structure DOMSnapshot where
  documents : List DocumentSnapshot
  strings : List String
deriving DecidableEq, Repr

/- ============ accessibility.ts: value/property helpers ============ -/

/-- `getAxNodeValue`: `!axValue || type === 'valueUndefined' ? '' : String(value || '')`. -/
def getAxNodeValue : Option AxValue → String
  | none => ""
  | some v => if v.type = "valueUndefined" then "" else v.value.getD ""

/-- `getAxNodeProperty`: value of the first property with the given name, else `''`. -/
def getAxNodeProperty (axNode : AxNode) (propertyName : String) : String :=
  match axNode.properties with
  | none => ""
  | some props =>
    match props.find? (fun p => p.name = propertyName) with
    | none => ""
    | some p => getAxNodeValue (some p.value)

/-- The `AX_ROLE_TO_HTML_TAG` object, as an association list in source order. -/
def axRoleToHtmlTagTable : List (String × String) :=
  [("link", "a"), ("checkbox", "input"), ("radio", "input"), ("textbox", "input"),
   ("searchbox", "input"), ("switch", "input"), ("slider", "input"),
   ("spinbutton", "input"), ("combobox", "select"), ("heading", "h2"),
   ("paragraph", "p"), ("list", "ul"), ("listitem", "li"), ("row", "tr"),
   ("cell", "td"), ("columnheader", "th"), ("rowheader", "th"), ("WebRoot", "body"),
   ("RootWebArea", "body"), ("MenuListPopup", "menu"), ("dialog", "div"),
   ("radiogroup", "fieldset"), ("WebArea", "iframe"), ("Iframe", "iframe"),
   ("generic", "div"), ("banner", "header"), ("navigation", "nav"),
   ("contentinfo", "footer"), ("complementary", "aside"), ("region", "section"),
   ("search", "div"), ("image", "img"), ("separator", "hr"), ("LabelText", "label"),
   ("strong", "b"), ("DisclosureTriangle", "details"), ("default", "div")]

/-- `AX_ROLE_TO_HTML_TAG[role]` (an absent key yields `undefined`). -/
def axRoleToHtmlTag (role : String) : Option String :=
  axRoleToHtmlTagTable.lookup role

/-- JS `String.prototype.startsWith`, over character lists (the byte-position
core implementation does not reduce in the kernel). -/
def startsWithJs (s pre : String) : Bool :=
  pre.toList.isPrefixOf s.toList

/-- JS `String.prototype.toLowerCase` (ASCII range, as `Char.toLower`). -/
def toLowerJs (s : String) : String :=
  String.mk (s.toList.map Char.toLower)

/-- JS `String.prototype.toUpperCase` (ASCII range, as `Char.toUpper`). -/
def toUpperJs (s : String) : String :=
  String.mk (s.toList.map Char.toUpper)

/-- The `SELF_CLOSING_TAGS` set. -/
def selfClosingTags : List String :=
  ["area", "base", "br", "col", "embed", "hr", "img", "input", "link", "meta",
   "param", "source", "track", "wbr"]

/-- Digits-prefix parser used by the JS `parseInt` model. -/
def digitsValue (cs : List Char) : Option Nat :=
  let ds := cs.takeWhile (fun c => c.isDigit)
  if ds = [] then none
  else some (ds.foldl (fun a c => a * 10 + (c.toNat - 48)) 0)

/-- JS `parseInt(s)` (base 10): skip leading spaces, optional sign, leading
digits; `none` models `NaN`. -/
def parseIntJs (s : String) : Option Int :=
  let cs := s.toList.dropWhile (fun c => c = ' ')
  match cs with
  | '-' :: rest => (digitsValue rest).map (fun n => -(n : Int))
  | '+' :: rest => (digitsValue rest).map (fun n => (n : Int))
  | _ => (digitsValue cs).map (fun n => (n : Int))

/-- `parseInt(...) || 2` of the heading-level computation: `NaN` and `0` are
falsy and fall back to `2`. -/
def headingLevelOf (axNode : AxNode) : Int :=
  match parseIntJs (getAxNodeProperty axNode (("level"))) with
  | none => 2
  | some k => if k = 0 then 2 else k

/-- `getTagNameForAxNode(role, axNode, parentAxNode)`. -/
def getTagNameForAxNode (role : String) (axNode : AxNode) (parentAxNode : Option AxNode) : String :=
  let tag := (axRoleToHtmlTag role).getD (("div"))
  let tag :=
    if role = "heading" then
      let level := headingLevelOf axNode
      if 1 ≤ level ∧ level ≤ 6 then "h" ++ toString level else tag
    else tag
  let isParentEditable :=
    match parentAxNode with
    | none => false
    | some p => getAxNodeProperty p (("editable")) ≠ ""
  let isNodeEditable := getAxNodeProperty axNode (("editable"))
  if isParentEditable = false ∧ isNodeEditable ≠ "" then
    if isNodeEditable = "richtext" then "div"
    else if getAxNodeProperty axNode (("multiline")) ≠ "" then "textarea"
    else "input"
  else tag

/-- The heading tags list used by `isRoleRedundant`. -/
def headingTags : List String := ["h1", "h2", "h3", "h4", "h5", "h6"]

/-- `isRoleRedundant(tag, role)`: despite its name, the source returns `true`
when the role is NOT implied by the tag (it negates the equivalence test). -/
def isRoleRedundant (tag role : String) : Bool :=
  ¬(role = tag ∨ axRoleToHtmlTag role = some tag ∨
    (tag = "select" ∧ role = "combobox") ∨
    (tag = "textarea" ∧ role = "textbox") ∨
    (headingTags.contains tag ∧ role = "heading"))

/-- One global single-character replacement, modelling `str.replace(/c/g, rep)`. -/
def replaceAllC (s : String) (pat : Char) (rep : String) : String :=
  String.join (s.toList.map (fun c => if c = pat then rep else String.singleton c))

/-- `escapeHTML`: replace `"` by `&quot;`, `<` by `&lt;`, `>` by `&gt;`. -/
def escapeHTML (str : String) : String :=
  replaceAllC (replaceAllC (replaceAllC str '"' (("&quot;"))) '<' (("&lt;"))) '>' (("&gt;"))

/-- Property names emitted as bare boolean attributes. -/
def bareBoolProps : List String :=
  ["disabled", "readonly", "required", "checked", "selected"]

/-- Property names emitted as `aria-*="true"` boolean attributes. -/
def ariaBoolProps : List String :=
  ["busy", "invalid", "atomic", "multiselectable", "expanded", "modal", "pressed"]

/-- Property names emitted as `aria-*="value"` string attributes. -/
def ariaStringProps : List String :=
  ["placeholder", "keyshortcuts", "roledescription", "live", "relevant",
   "autocomplete", "hasPopup", "valuemin", "valuemax", "valuetext", "errormessage"]

/-- The attribute (if any) contributed by one property in the `switch` of
`addAriaProperties`. -/
def ariaAttrForProp (axNode : AxNode) (parentAxNode : Option AxNode) (p : AxProperty) : List String :=
  let name := p.name
  let value := getAxNodeValue (some p.value)
  if bareBoolProps.contains name then
    if value = "true" then [name] else []
  else if ariaBoolProps.contains name then
    if value = "true" then ["aria-" ++ name ++ "=\"true\""] else []
  else if ariaStringProps.contains name then
    if value ≠ "" then ["aria-" ++ toLowerJs name ++ "=\"" ++ value ++ "\""] else []
  else if name = "focused" then
    if value = "true" then ["aria-current=\"true\""] else []
  else if name = "url" then
    if value ≠ "" ∧ startsWithJs value (("data:")) = false ∧
        startsWithJs value (("blob:")) = false ∧ startsWithJs value (("file:")) = false then
      let href := if startsWithJs value (("javascript:")) then "#" else value
      if getAxNodeValue axNode.role = "image" then
        ["src=\"" ++ escapeHTML href ++ "\""]
      else
        ["href=\"" ++ escapeHTML href ++ "\""]
    else []
  else if name = "editable" then
    let isParentEditable : Bool :=
      match parentAxNode with
      | none => false
      | some par => getAxNodeProperty par (("editable")) ≠ ""
    if value = "richtext" ∧ isParentEditable = false then
      ["contenteditable=\"true\""]
    else []
  else if name = "hiddenRoot" then
    if value = "true" then ["aria-hidden=\"true\""] else []
  else []

/-- `addAriaProperties(axNode, attributes, parentAxNode)`: the attributes the
source pushes, in property order. -/
def addAriaProperties (axNode : AxNode) (parentAxNode : Option AxNode) : List String :=
  match axNode.properties with
  | none => []
  | some props => props.flatMap (ariaAttrForProp axNode parentAxNode)

/-- `isNodeInViewport(box, viewport, checkHorizontal)`; the only call site uses
the default `checkHorizontal = false`. -/
def isNodeInViewport (box viewport : BoundingBox) (checkHorizontal : Bool) : Bool :=
  let noVerticalOverlap := box.y ≥ viewport.height ∨ box.y + box.height ≤ 0
  if noVerticalOverlap then false
  else if checkHorizontal then
    let noHorizontalOverlap := box.x ≥ viewport.width ∨ box.x + box.width ≤ 0
    ¬noHorizontalOverlap
  else true

/- ============ accessibility.ts: isRedundantLabel machinery ============ -/

/-- Drop characters up to and including the first `>` (the tail of one
`<[^>]*>` regex match). -/
def dropThroughGt (cs : List Char) : List Char :=
  (cs.dropWhile (fun c => c ≠ '>')).drop 1

/-- `childHtml.replace(/<[^>]*>/g, '')`: a `<` opens a tag segment only when a
`>` still follows; otherwise the character is kept.  The fuel is the input
length; every step consumes at least one character, so it never runs out. -/
def stripTagsF : Nat → List Char → List Char
  | 0, _ => []
  | _ + 1, [] => []
  | f + 1, '<' :: rest =>
    if rest.contains '>' then stripTagsF f (dropThroughGt rest)
    else '<' :: stripTagsF f rest
  | f + 1, c :: rest => c :: stripTagsF f rest

/-- `.replace(/\s+/g, '').toLowerCase()`. -/
def normalizeJs (cs : List Char) : List Char :=
  (cs.filter (fun c => ¬c.isWhitespace)).map Char.toLower

/-- JS `String.prototype.includes` over character lists. -/
def containsSub (needle : List Char) : List Char → Bool
  | [] => needle.isEmpty
  | c :: rest => needle.isPrefixOf (c :: rest) || containsSub needle rest

/-- Attempt to match `(aria-label|alt)="([^"]*)"` at the start of `cs`,
returning the captured value and the remainder after the match. -/
def labelMatchAt (cs : List Char) : Option (List Char × List Char) :=
  let tryPat := fun (pat : List Char) =>
    if pat.isPrefixOf cs then
      let rest := cs.drop pat.length
      if rest.contains '"' then
        some (rest.takeWhile (fun c => c ≠ '"'), (rest.dropWhile (fun c => c ≠ '"')).drop 1)
      else none
    else none
  match tryPat (String.toList (("aria-label=\""))) with
  | some r => some r
  | none => tryPat (String.toList (("alt=\"")))

/-- All `$2` captures of `childHtml.match(/(aria-label|alt)="([^"]*)"/g)`,
scanning left to right.  Fuel as in `stripTagsF`. -/
def extractLabelsF : Nat → List Char → List String
  | 0, _ => []
  | _ + 1, [] => []
  | f + 1, c :: rest =>
    match labelMatchAt (c :: rest) with
    | some r => String.mk r.1 :: extractLabelsF f r.2
    | none => extractLabelsF f rest

/-- `isRedundantLabel(tag, label, childHtml)`. -/
def isRedundantLabel (tag label childHtml : String) : Bool :=
  if selfClosingTags.contains tag then true
  else
    let childChars := childHtml.toList
    let childText := normalizeJs (stripTagsF childChars.length childChars)
    let existingLabels :=
      normalizeJs (String.join (extractLabelsF childChars.length childChars)).toList
    let normalizedLabel := normalizeJs label.toList
    !containsSub normalizedLabel childText && !containsSub normalizedLabel existingLabels

/- ============ accessibility.ts: the AX-to-HTML synthesizer ============ -/

/-- The per-call mutable `visited` map of `axTreeToHtml`. -/
structure SynthSt where
  visited : String → Option AxNode

/-- The read-only context of one `axTreeToHtml` call.  `iframeContent` is the
opaque instrumentation channel: what the `parseIframe` sub-extraction would
return for an iframe node (`none` models a `null` result). -/
structure SynthEnv where
  nodeMap : String → Option AxNode
  cursorPointerNodes : Nat → Option String
  eventListenerMap : Nat → Option (List String)
  frameContextId : Option String
  hasViewportFilter : Bool
  visibleNodeIds : List String
  iframeContent : AxNode → Option String

/-- `visited.set(axNode.nodeId, axNode)`. -/
def insertVisited (st : SynthSt) (axNode : AxNode) : SynthSt :=
  ⟨fun q => if q = axNode.nodeId then some axNode else st.visited q⟩

/-- The click-family event types. -/
def clickEventTypes : List String := ["click", "mousedown", "mouseup"]

/-- `eventListenerMap.has(id) && eventListenerMap.get(id)?.some(t => [...].includes(t))`. -/
def hasClickListener (env : SynthEnv) (axNode : AxNode) : Bool :=
  match env.eventListenerMap axNode.backendDOMNodeId with
  | none => false
  | some types => types.any (fun t => clickEventTypes.contains t)

/-- `cursorPointerNodes.has(axNode.backendDOMNodeId)`. -/
def isCursorPointerB (env : SynthEnv) (axNode : AxNode) : Bool :=
  (env.cursorPointerNodes axNode.backendDOMNodeId).isSome

/-- `isCursorPointer || hasClickListener`. -/
def isInteractiveEl (env : SynthEnv) (axNode : AxNode) : Bool :=
  isCursorPointerB env axNode || hasClickListener env axNode

/-- Roles elided as purely structural wrappers. -/
def ignoredRoles : List String :=
  ["LayoutTable", "LayoutTableRow", "LayoutTableCell", "LineBreak",
   "InlineTextBox", "presentation", "none"]

/-- `axNode.parentId ? visited.get(axNode.parentId) : undefined` (an empty
parentId string is falsy in JS). -/
def parentFromVisited (st : SynthSt) (axNode : AxNode) : Option AxNode :=
  match axNode.parentId with
  | none => none
  | some pid => if pid = "" then none else st.visited pid

/-- Tag choice (source lines: interactive nodes keep their DOM tag name from
the cursor-pointer map when known; ignored wrappers become `div`). -/
def synthTag (env : SynthEnv) (axNode : AxNode) (parentNode : Option AxNode)
    (role : String) (isInteractiveElement isIgnoredNode : Bool) : String :=
  if isInteractiveElement then
    (env.cursorPointerNodes axNode.backendDOMNodeId).getD
      (getTagNameForAxNode role axNode parentNode)
  else if isIgnoredNode then "div"
  else getTagNameForAxNode role axNode parentNode

/-- `type` attributes added for `input` tags. -/
def inputTypeAttrs (tag role : String) : List String :=
  if tag = "input" then
    if role = "checkbox" ∨ role = "switch" then ["type=\"checkbox\""]
    else if role = "radio" then ["type=\"radio\""]
    else if role = "searchbox" then ["type=\"search\""]
    else if role = "slider" then ["type=\"range\""]
    else if role = "spinbutton" then ["type=\"number\""]
    else []
  else []

/-- The `value="..."` attribute (skipped for `textarea`/`div` tags and for an
absent or empty accessible value). -/
def valueAttrs (axNode : AxNode) (tag : String) : List String :=
  match axNode.value with
  | none => []
  | some _ =>
    if tag ≠ "textarea" ∧ tag ≠ "div" then
      let v := getAxNodeValue axNode.value
      if v ≠ "" then ["value=\"" ++ escapeHTML v ++ "\""] else []
    else []

/-- The explicit `role="..."` attribute, emitted only when the role is not
implied by the chosen tag. -/
def roleAttrs (isIgnoredNode isGeneric : Bool) (tag role : String) : List String :=
  if isIgnoredNode = false ∧ isGeneric = false ∧ role ≠ "" ∧ isRoleRedundant tag role = true then
    ["role=\"" ++ role ++ "\""]
  else []

/-- The value of the stable `node="..."` identifier attribute:
`frameContextId ? frameContextId + ':' + id : id`. -/
def nodeIdValue (env : SynthEnv) (axNode : AxNode) : String :=
  let bid := toString axNode.backendDOMNodeId
  match env.frameContextId with
  | some fc => if fc = "" then bid else fc ++ ":" ++ bid
  | none => bid

/-- JS `Array.prototype.join(sep)`. -/
def joinSep (sep : String) : List String → String
  | [] => ""
  | [x] => x
  | x :: y :: rest => x ++ sep ++ joinSep sep (y :: rest)

/-- `buildChildrenHtml`: fold the recursive renderer over `childIds`, inserting
`<br>` between two consecutive non-empty inline (non-tag) fragments.  The
recursive renderer is passed as `rec`. -/
def buildChildrenHtml (rec : AxNode → SynthSt → String × SynthSt)
    (nodeMap : String → Option AxNode) (axNode : AxNode) (st : SynthSt) :
    String × SynthSt :=
  match axNode.childIds with
  | none => ("", st)
  | some ids =>
    if ids.length = 0 then ("", st)
    else
      let r := ids.foldl
        (fun (acc : List String × Bool × SynthSt) childId =>
          match nodeMap childId with
          | none => acc
          | some childNode =>
            let hs := rec childNode acc.2.2
            if hs.1 = "" then (acc.1, acc.2.1, hs.2)
            else
              let isInline := !startsWithJs hs.1 (("<"))
              let parts :=
                if isInline = true ∧ acc.2.1 = true ∧ acc.1 ≠ [] then acc.1 ++ ["<br>"]
                else acc.1
              (parts ++ [hs.1], isInline, hs.2))
        ([], false, st)
      (String.join r.1, r.2.2)

/-- The final stage of `buildHtmlRecursive`: the emission gate (`!childrenHtml
&& !attributes.length`), the `node="<id>"` interactivity marker (pushed after
the gate), and serialization (self-closing tags without children; an iframe
with content replaced by that content; otherwise `<tag attrs>children</tag>`). -/
def emitTail (env : SynthEnv) (axNode : AxNode) (isInteractiveElement : Bool) (tag : String)
    (childrenHtml : String) (attrs2 : List String) (st1 : SynthSt) : String × SynthSt :=
  if childrenHtml = "" ∧ attrs2 = [] then ("", st1)
  else
    let attrs3 :=
      if (getAxNodeProperty axNode (("focusable")) = "true" ∨ isInteractiveElement = true) ∧
          axNode.backendDOMNodeId ≠ 0 then
        attrs2 ++ ["node=\"" ++ nodeIdValue env axNode ++ "\""]
      else attrs2
    let attrString := if attrs3.length = 0 then "" else " " ++ joinSep (" ") attrs3
    if selfClosingTags.contains tag then ("<" ++ tag ++ attrString ++ "/>", st1)
    else if tag = "iframe" ∧ childrenHtml ≠ "" then (childrenHtml, st1)
    else ("<" ++ tag ++ attrString ++ ">" ++ childrenHtml ++ "</" ++ tag ++ ">", st1)

/-- The element-emission tail of `buildHtmlRecursive` (everything after the
early-return guards): tag choice, attribute assembly, children rendering,
label placement, then `emitTail`.  `buildChildren` is the children renderer at
the current recursion depth. -/
def emitElement (env : SynthEnv) (buildChildren : AxNode → SynthSt → String × SynthSt)
    (axNode : AxNode) (st : SynthSt) (role : String) (parentNode : Option AxNode)
    (ariaAttrs : List String) (isInteractiveElement isIgnoredNode isGeneric : Bool) :
    String × SynthSt :=
  let tag := synthTag env axNode parentNode role isInteractiveElement isIgnoredNode
  let attrs := ariaAttrs ++ inputTypeAttrs tag role ++ valueAttrs axNode tag ++
    roleAttrs isIgnoredNode isGeneric tag role
  let chSt :=
    if tag = "iframe" then ((env.iframeContent axNode).getD (("")), st)
    else buildChildren axNode st
  let st1 := chSt.2
  let label := getAxNodeValue axNode.name
  let chAttrs : String × List String :=
    if label ≠ "" then
      if chSt.1 = "" ∧ selfClosingTags.contains tag = false then (label, attrs)
      else if isRedundantLabel tag label chSt.1 = true then
        if tag = "img" then (chSt.1, attrs ++ ["alt=\"" ++ escapeHTML label ++ "\""])
        else (chSt.1, attrs ++ ["aria-label=\"" ++ escapeHTML label ++ "\""])
      else (chSt.1, attrs)
    else (chSt.1, attrs)
  emitTail env axNode isInteractiveElement tag chAttrs.1 chAttrs.2 st1

/-- `buildHtmlRecursive`.  The fuel bounds the depth of nested fresh visits;
one fuel unit is consumed per recursion level.  A fresh visit inserts a new
node id into `visited` before recursing, so nesting depth never exceeds the
number of distinct node ids; the top-level call supplies `axNodes.length + 1`
fuel, and a call at fuel `0` can only be a revisit, which returns `""` exactly
as the visited guard does. -/
def buildHtml (env : SynthEnv) : Nat → AxNode → SynthSt → String × SynthSt
  | 0, _, st => ("", st)
  | f + 1, axNode, st =>
    if (st.visited axNode.nodeId).isSome then ("", st)
    else
      let st := insertVisited st axNode
      if env.hasViewportFilter = true ∧ env.visibleNodeIds.contains axNode.nodeId = false then
        ("", st)
      else
        let role := getAxNodeValue axNode.role
        if role = "StaticText" then (getAxNodeValue axNode.name, st)
        else
          let isInteractiveElement := isInteractiveEl env axNode
          let isIgnoredNode := ignoredRoles.contains role
          if getAxNodeProperty axNode (("hidden")) = "true" then ("", st)
          else if isInteractiveElement = false ∧ (isIgnoredNode = true ∨ axNode.ignored = true) then
            buildChildrenHtml (buildHtml env f) env.nodeMap axNode st
          else if role = "ListMarker" then (getAxNodeValue axNode.name, st)
          else
            let parentNode := parentFromVisited st axNode
            let ariaAttrs := addAriaProperties axNode parentNode
            let isGeneric := role == "generic" || role == "group"
            if isGeneric = true ∧ ariaAttrs.length = 0 ∧ getAxNodeValue axNode.name = "" ∧
                isInteractiveElement = false then
              buildChildrenHtml (buildHtml env f) env.nodeMap axNode st
            else
              emitElement env (buildChildrenHtml (buildHtml env f) env.nodeMap) axNode st role
                parentNode ariaAttrs isInteractiveElement isIgnoredNode isGeneric
termination_by structural fuel node st => fuel

/- ============ accessibility.ts: viewport filtering ============ -/

/-- The optional viewport filter: visual-viewport box plus the map from AX node
id to bounding box, as an entry list in map iteration order. -/
structure ViewportFilter where
  viewportInfo : BoundingBox
  nodeBoundingBoxes : List (String × BoundingBox)

/-- `new Map(axNodes.map(n => [n.nodeId, n]))`: later entries overwrite. -/
def nodeMapOf (axNodes : List AxNode) : String → Option AxNode :=
  axNodes.foldl (fun m n => fun q => if q = n.nodeId then some n else m q) (fun _ => none)

/-- The ancestor-marking `while` loop: ids of the parent chain starting from
(and excluding) the given node, following `parentId` through the node map.
The source loop runs unboundedly; a chain in a well-formed (acyclic) tree has
length at most the node count, which the caller supplies as fuel. -/
def parentChainIds (nodeMap : String → Option AxNode) : Nat → Option AxNode → List String
  | 0, _ => []
  | _ + 1, none => []
  | f + 1, some cur =>
    match cur.parentId with
    | none => []
    | some pid => if pid = "" then [] else pid :: parentChainIds nodeMap f (nodeMap pid)

/-- `Set.add` on an insertion-ordered list model of a JS `Set`. -/
def addUnique (l : List String) (x : String) : List String :=
  if l.contains x then l else l ++ [x]

/-- First marking pass of `axTreeToHtml`: every node whose box intersects the
viewport (vertical check only), plus all its ancestors. -/
def stage1Visible (nodeMap : String → Option AxNode) (vf : ViewportFilter) (fuel : Nat) :
    List String :=
  vf.nodeBoundingBoxes.foldl
    (fun acc entry =>
      if isNodeInViewport entry.2 vf.viewportInfo false then
        (parentChainIds nodeMap fuel (nodeMap entry.1)).foldl addUnique (addUnique acc entry.1)
      else acc)
    []

/-- The descendant-marking `while (queue.length > 0)` loop under one visible
combobox: breadth-first over `childIds`, skipping already-visible ids.  The
`allIds` universe (all node ids of the capture) only justifies termination:
an id outside it has no node-map entry and thus no children to enqueue. -/
def comboboxClosureLoop (nodeMap : String → Option AxNode) (allIds : Finset String) :
    List String → List String → List String
  | [], visible => visible
  | q :: rest, visible =>
    if hskip : q = "" ∨ visible.contains q = true then
      comboboxClosureLoop nodeMap allIds rest visible
    else
      let visible2 := visible ++ [q]
      let kids :=
        match nodeMap q with
        | none => []
        | some n => n.childIds.getD []
      if h : q ∈ allIds then comboboxClosureLoop nodeMap allIds (rest ++ kids) visible2
      else comboboxClosureLoop nodeMap allIds rest visible2
termination_by queue visible => ((allIds.filter (fun x => x ∉ visible)).card, queue.length)
decreasing_by
  · apply Prod.Lex.right
    simp
  · apply Prod.Lex.left
    have hqv : q ∉ visible := by
      intro hm
      exact hskip (Or.inr ((List.elem_iff).mpr hm))
    have hsub : allIds.filter (fun x => x ∉ visible2) ⊆ allIds.filter (fun x => x ∉ visible) := by
      intro x hx
      simp only [Finset.mem_filter] at hx ⊢
      refine ⟨hx.1, fun hm => hx.2 ?_⟩
      simp [visible2, List.mem_append, hm]
    have hq : q ∈ allIds.filter (fun x => x ∉ visible) := by
      simp only [Finset.mem_filter]
      exact ⟨h, hqv⟩
    have hq2 : q ∉ allIds.filter (fun x => x ∉ visible2) := by
      simp [visible2, Finset.mem_filter]
    exact Finset.card_lt_card ((Finset.ssubset_iff_of_subset hsub).mpr ⟨q, hq, hq2⟩)
  · have heq : allIds.filter (fun x => x ∉ visible2) = allIds.filter (fun x => x ∉ visible) := by
      ext x
      simp only [Finset.mem_filter, visible2, List.mem_append, List.mem_singleton]
      constructor
      · rintro ⟨hx, hm⟩
        exact ⟨hx, fun hv => hm (Or.inl hv)⟩
      · rintro ⟨hx, hm⟩
        refine ⟨hx, ?_⟩
        rintro (hv | he)
        · exact hm hv
        · exact h (he ▸ hx)
    rw [heq]
    apply Prod.Lex.right
    simp

/-- Second marking pass: for each id of the first-pass snapshot whose node is a
`combobox`, mark all its descendants visible. -/
def comboboxStage (nodeMap : String → Option AxNode) (allIds : Finset String)
    (visible : List String) : List String :=
  visible.foldl
    (fun vis nodeId =>
      match nodeMap nodeId with
      | none => vis
      | some node =>
        if getAxNodeValue node.role = "combobox" then
          comboboxClosureLoop nodeMap allIds (node.childIds.getD []) vis
        else vis)
    visible

/-- The full `visibleNodeIds` computation of `axTreeToHtml`. -/
def computeVisibleNodeIds (axNodes : List AxNode) (vf : ViewportFilter) : List String :=
  let nodeMap := nodeMapOf axNodes
  let allIds : Finset String := (axNodes.map (fun n => n.nodeId)).toFinset
  comboboxStage nodeMap allIds (stage1Visible nodeMap vf axNodes.length)

/-- `axTreeToHtml` for one frame.  The `tabContext` plumbing and the live
iframe sub-extraction are the opaque instrumentation channel; the latter is
the `iframeContent` oracle. -/
def axTreeToHtml (axNodes : List AxNode) (cursorPointerNodes : Nat → Option String)
    (eventListenerMap : Nat → Option (List String)) (frameContextId : Option String)
    (viewportFilter : Option ViewportFilter) (iframeContent : AxNode → Option String) :
    String :=
  let nodeMap := nodeMapOf axNodes
  match axNodes.find? (fun n => n.parentId.getD (("")) == "") with
  | none => ""
  | some rootNode =>
    let visibleIds :=
      match viewportFilter with
      | none => []
      | some vf => computeVisibleNodeIds axNodes vf
    let env : SynthEnv :=
      ⟨nodeMap, cursorPointerNodes, eventListenerMap, frameContextId,
        viewportFilter.isSome, visibleIds, iframeContent⟩
    (buildHtml env (axNodes.length + 1) rootNode ⟨fun _ => none⟩).1

/- ============ dom-parser.ts: snapshot decoding ============ -/

/-- `snapshot.strings[index] ?? ''` for a known numeric index. -/
def getStringN (strings : List String) (k : Nat) : String :=
  (strings.get? k).getD ""

/-- `snapshot.strings[index] ?? ''` when the index itself may be `undefined`. -/
def getStringOptN (strings : List String) (k : Option Nat) : String :=
  match k with
  | none => ""
  | some i => getStringN strings i

/-- A sparse side table as a map (`index.forEach((n, i) => map.set(n, value[i]))`;
later entries overwrite). -/
def sparseLookup (t : SparseTable) : Nat → Option Nat :=
  (List.range t.index.length).foldl
    (fun m i => fun q => if q = t.index.getD i 0 then t.value.get? i else m q)
    (fun _ => none)

/-- The layout map: `layout.nodeIndex.forEach((nodeIndex, i) => map.set(nodeIndex, i))`. -/
def layoutMapOf (doc : DocumentSnapshot) : Nat → Option Nat :=
  (List.range doc.layout.nodeIndex.length).foldl
    (fun m i => fun q => if q = doc.layout.nodeIndex.getD i 0 then some i else m q)
    (fun _ => none)

/-- The decoded per-node record produced by `buildNodeData`. -/
structure NodeData where
  attributes : List Nat
  nodeType : Int
  nodeName : Option Nat
  nodeValue : Option Nat
  backendNodeId : Nat
  parentIndex : Int
  optionSelected : Bool
  isClickable : Bool
  inputChecked : Bool
  shadowRootType : Option Nat
  inputValue : Option Nat
  textValue : Option Nat
  contentDocumentIndex : Option Nat
  layoutIndex : Int
deriving DecidableEq, Repr

/-- `buildNodeData(nodeIndex, snapshot, maps)`: keep only element (1), text (3)
and document-fragment (11) nodes; a text node must have a layout entry (either
from the layout map or from `textBoxes.layoutIndex[nodeIndex]`), else it is
dropped.  An out-of-range `attributes` row is modelled as `[]` (the source
would store `undefined`, which no surviving code path reads safely). -/
def buildNodeData (nodeIndex : Nat) (doc : DocumentSnapshot) : Option NodeData :=
  match doc.nodes.nodeType.get? nodeIndex with
  | none => none
  | some nodeType =>
    if ¬(nodeType = 1 ∨ nodeType = 3 ∨ nodeType = 11) then none
    else
      let layoutIndex0 : Int :=
        match layoutMapOf doc nodeIndex with
        | some i => (i : Int)
        | none => -1
      let layoutOpt : Option Int :=
        if nodeType = 3 ∧ layoutIndex0 = -1 then
          match doc.textBoxes.layoutIndex.get? nodeIndex with
          | none => none
          | some v => some v
        else some layoutIndex0
      match layoutOpt with
      | none => none
      | some layoutIndex =>
        some
          { attributes := doc.nodes.attributes.getD nodeIndex []
            nodeType := nodeType
            nodeName := doc.nodes.nodeName.get? nodeIndex
            nodeValue := doc.nodes.nodeValue.get? nodeIndex
            backendNodeId := doc.nodes.backendNodeId.getD nodeIndex 0
            parentIndex := doc.nodes.parentIndex.getD nodeIndex (-1)
            optionSelected := doc.nodes.optionSelected.index.contains nodeIndex
            isClickable := doc.nodes.isClickable.index.contains nodeIndex
            inputChecked := doc.nodes.inputChecked.index.contains nodeIndex
            shadowRootType := sparseLookup doc.nodes.shadowRootType nodeIndex
            inputValue := sparseLookup doc.nodes.inputValue nodeIndex
            textValue := sparseLookup doc.nodes.textValue nodeIndex
            contentDocumentIndex := sparseLookup doc.nodes.contentDocumentIndex nodeIndex
            layoutIndex := layoutIndex }

/-- `processSnapshot(snapshot)`: node map and parent→children index, iterating
`parentIndex` with the node index as position. -/
def processSnapshot (doc : DocumentSnapshot) : (Nat → Option NodeData) × (Nat → List Nat) :=
  (List.range doc.nodes.parentIndex.length).foldl
    (fun (acc : (Nat → Option NodeData) × (Nat → List Nat)) nodeIndex =>
      match buildNodeData nodeIndex doc with
      | none => acc
      | some nodeData =>
        let nodeMap := fun q => if q = nodeIndex then some nodeData else acc.1 q
        let parentIndex := doc.nodes.parentIndex.getD nodeIndex 0
        if parentIndex < 0 then (nodeMap, acc.2)
        else
          let p := parentIndex.toNat
          (nodeMap, fun q => if q = p then acc.2 p ++ [nodeIndex] else acc.2 q))
    (fun _ => none, fun _ => [])

/-- The `isPdf` closure of `analyzeSnapshot`: walk document → first child →
its second child → its first child and test that node's attribute strings for
one of the three PDF MIME markers.  The `!index` guards are JS falsy tests,
so a literal index `0` also bails out. -/
def isPdfCheck (snapshot : DOMSnapshot) (nodeMap : Nat → Option NodeData)
    (childrenMap : Nat → List Nat) : Bool :=
  match (childrenMap 0).get? 0 with
  | none => false
  | some htmlNodeIndex =>
    if htmlNodeIndex = 0 then false
    else
      match (childrenMap htmlNodeIndex).get? 1 with
      | none => false
      | some bodyNodeIndex =>
        if bodyNodeIndex = 0 then false
        else
          match (childrenMap bodyNodeIndex).get? 0 with
          | none => false
          | some embedNodeIndex =>
            if embedNodeIndex = 0 then false
            else
              match nodeMap embedNodeIndex with
              | none => false
              | some embedNode =>
                let attrs := embedNode.attributes.map (getStringN snapshot.strings)
                attrs.contains ("application/pdf") ||
                  attrs.contains ("application/x-pdf") ||
                  attrs.contains ("application/x-google-chrome-pdf")

/-- JS `s.replace(pat, '')` with a plain-string pattern: remove the first
occurrence (anywhere) of `pat`. -/
def removeFirstSub (pat : List Char) : List Char → List Char
  | [] => []
  | c :: rest =>
    if pat.isPrefixOf (c :: rest) then (c :: rest).drop pat.length
    else c :: removeFirstSub pat rest

/-- `parseNodeAttributes(snapshot, node)`: decode the flattened key/value index
pairs into a (lower-cased-key) map; later pairs overwrite. -/
def parseNodeAttributes (snapshot : DOMSnapshot) (node : Option NodeData) :
    String → Option String :=
  let attributes := match node with | none => [] | some n => n.attributes
  (List.range ((attributes.length + 1) / 2)).foldl
    (fun m j =>
      let key := toLowerJs (getStringOptN snapshot.strings (attributes.get? (2 * j)))
      let value := getStringOptN snapshot.strings (attributes.get? (2 * j + 1))
      fun q => if q = key then some value else m q)
    (fun _ => none)

/-- The `extractMeta` closure of `analyzeSnapshot`: walk document → first child
→ its first child (the head), keep `<meta>` children whose `property` starts
with `og:` or whose `name` is `description` and which carry non-empty
`content`; the key is `property` with its first `og:` removed, else `name`;
later tags overwrite earlier ones. -/
def extractMeta (snapshot : DOMSnapshot) (nodeMap : Nat → Option NodeData)
    (childrenMap : Nat → List Nat) : String → Option String :=
  let empty : String → Option String := fun _ => none
  match (childrenMap 0).get? 0 with
  | none => empty
  | some htmlNodeIndex =>
    if htmlNodeIndex = 0 then empty
    else
      match (childrenMap htmlNodeIndex).get? 0 with
      | none => empty
      | some headNodeIndex =>
        if headNodeIndex = 0 then empty
        else
          let headChildren := childrenMap headNodeIndex
          if headChildren.length = 0 then empty
          else
            headChildren.foldl
              (fun metaTags childIndex =>
                match nodeMap childIndex with
                | none => metaTags
                | some node =>
                  if toUpperJs (getStringOptN snapshot.strings node.nodeName) ≠ "META" then
                    metaTags
                  else
                    let attrs := parseNodeAttributes snapshot (some node)
                    let property := (attrs (("property"))).map toLowerJs
                    let nameAttr := (attrs (("name"))).map toLowerJs
                    let content := attrs (("content"))
                    let cond :=
                      (match property with
                       | some p => startsWithJs p (("og:"))
                       | none => false) ||
                        nameAttr == some (("description"))
                    match content with
                    | none => metaTags
                    | some c =>
                      if c = "" then metaTags
                      else if cond then
                        let key : Option String :=
                          match property with
                          | some p => some (String.mk (removeFirstSub (String.toList (("og:"))) p.toList))
                          | none => nameAttr
                        match key with
                        | none => metaTags
                        | some k =>
                          if k = "" then metaTags
                          else fun q => if q = k then some c else metaTags q
                      else metaTags)
              empty

/- ============ dom-parser.ts: cursor-pointer propagation ============ -/

/-- State threaded through `findCursorPointerNodes`/`markChildrenInteractive`:
the pointer-node map and the processed backend-id set. -/
structure PtrSt where
  ptr : Nat → Option String
  processed : Finset Nat

/-- The node→children index shared by all documents of the capture (the source
builds one map over every document's `parentIndex` column). -/
def buildSharedChildrenMap (docs : List DocumentSnapshot) : Nat → List Nat :=
  docs.foldl
    (fun cm doc =>
      (List.range doc.nodes.parentIndex.length).foldl
        (fun cm2 nodeIndex =>
          let parentIndex := doc.nodes.parentIndex.getD nodeIndex 0
          if parentIndex < 0 then cm2
          else
            let p := parentIndex.toNat
            fun q => if q = p then cm2 p ++ [nodeIndex] else cm2 q)
        cm)
    (fun _ => [])

/-- Every backend id appearing in any document's `backendNodeId` column; used
only to justify termination of the descendant-marking recursion. -/
def allBackendIds (snapshot : DOMSnapshot) : Finset Nat :=
  (snapshot.documents.flatMap (fun d => d.nodes.backendNodeId)).toFinset

/-- `markChildrenInteractive`, as an explicit depth-first worklist: pop a node
index, skip it when its backend id is falsy or already processed, otherwise
record it (lower-cased node name, default `div`) and visit its children before
the remaining stack — exactly the source's recursion order.  Termination: each
non-skip step moves one backend id from `allIds \ processed` into `processed`
(a popped id outside `allIds` cannot occur, since every id read from the
`backendNodeId` column is in `allIds`). -/
def markLoop (nodes : NodeTreeSnapshot) (strings : List String) (cm : Nat → List Nat)
    (allIds : Finset Nat) : List Nat → PtrSt → PtrSt
  | [], st => st
  | c :: rest, st =>
    let childBackendId := nodes.backendNodeId.getD c 0
    if hskip : childBackendId = 0 ∨ childBackendId ∈ st.processed then
      markLoop nodes strings cm allIds rest st
    else
      let nodeName :=
        toLowerJs (((nodes.nodeName.get? c).bind (fun k => strings.get? k)).getD (("div")))
      let st2 : PtrSt :=
        ⟨fun q => if q = childBackendId then some nodeName else st.ptr q,
          insert childBackendId st.processed⟩
      if h : childBackendId ∈ allIds then
        markLoop nodes strings cm allIds (cm c ++ rest) st2
      else
        markLoop nodes strings cm allIds rest st2
termination_by stack st => ((allIds \ st.processed).card, stack.length)
decreasing_by
  · apply Prod.Lex.right
    simp
  · apply Prod.Lex.left
    have h1 : allIds \ (insert childBackendId st.processed) =
        (allIds \ st.processed).erase childBackendId := by
      ext x
      simp only [Finset.mem_sdiff, Finset.mem_erase, Finset.mem_insert, not_or]
      tauto
    rw [h1]
    apply Finset.card_erase_lt_of_mem
    simp only [Finset.mem_sdiff]
    exact ⟨h, fun hp => hskip (Or.inr hp)⟩
  · have h1 : allIds \ (insert childBackendId st.processed) = allIds \ st.processed := by
      ext x
      simp only [Finset.mem_sdiff, Finset.mem_insert, not_or]
      constructor
      · rintro ⟨hx, _, hp⟩
        exact ⟨hx, hp⟩
      · rintro ⟨hx, hp⟩
        refine ⟨hx, ?_, hp⟩
        intro he
        exact h (he ▸ hx)
    rw [h1]
    apply Prod.Lex.right
    simp

/-- One layout entry of the seeding pass of `findCursorPointerNodes`: if the
entry's first computed style is `pointer` and its node has a truthy backend
id, record it (overwriting) and mark all its DOM descendants. -/
def seedStep (snapshot : DOMSnapshot) (doc : DocumentSnapshot) (cm : Nat → List Nat)
    (allIds : Finset Nat) (st2 : PtrSt) (i : Nat) : PtrSt :=
  let styleStr :=
    ((doc.layout.styles.getD i []).get? 0).bind (fun k => snapshot.strings.get? k)
  if styleStr ≠ some (("pointer")) then st2
  else
    let nodeIndex := doc.layout.nodeIndex.getD i 0
    let backendNodeId := doc.nodes.backendNodeId.getD nodeIndex 0
    if backendNodeId = 0 then st2
    else
      let nodeName :=
        toLowerJs
          (((doc.nodes.nodeName.get? nodeIndex).bind
            (fun k => snapshot.strings.get? k)).getD (("div")))
      let st3 : PtrSt :=
        ⟨fun q => if q = backendNodeId then some nodeName else st2.ptr q,
          insert backendNodeId st2.processed⟩
      markLoop doc.nodes snapshot.strings cm allIds (cm nodeIndex) st3

/-- `findCursorPointerNodes`: for every layout entry (of every document) whose
first computed style is `pointer` and whose node has a truthy backend id, seed
the pointer map (overwriting) and mark all DOM descendants. -/
def findCursorPointerNodes (snapshot : DOMSnapshot) : Nat → Option String :=
  let cm := buildSharedChildrenMap snapshot.documents
  let allIds := allBackendIds snapshot
  let final :=
    snapshot.documents.foldl
      (fun st doc =>
        (List.range doc.layout.nodeIndex.length).foldl (seedStep snapshot doc cm allIds) st)
      ⟨fun _ => none, ∅⟩
  final.ptr

/-- The backend id of a node index (`nodes.backendNodeId[c]`, absent = `0`). -/
def bidOf (nodes : NodeTreeSnapshot) (c : Nat) : Nat :=
  nodes.backendNodeId.getD c 0

/-- Nonzero backend ids identify node indices uniquely (the well-formedness
invariant of a real capture: a backend node id names one DOM node). -/
def BidInj (nodes : NodeTreeSnapshot) : Prop :=
  ∀ i j, bidOf nodes i ≠ 0 → bidOf nodes i = bidOf nodes j → i = j

/-- The marking invariant: every processed backend id has all the (truthy)
backend ids of its children either processed or waiting on the stack. -/
def PtrClosed (nodes : NodeTreeSnapshot) (cm : Nat → List Nat) (processed : Finset Nat)
    (stack : List Nat) : Prop :=
  ∀ x, bidOf nodes x ≠ 0 → bidOf nodes x ∈ processed →
    ∀ y ∈ cm x, bidOf nodes y ≠ 0 → (bidOf nodes y ∈ processed ∨ y ∈ stack)

/-- Every processed backend id has a pointer-map entry. -/
def DomOk (st : PtrSt) : Prop := ∀ k ∈ st.processed, st.ptr k ≠ none

/-- The result record of `analyzeSnapshot`. -/
structure AnalyzeResult where
  meta : String → Option String
  isPdf : Bool
  cursorPointerNodes : Nat → Option String

/-- `analyzeSnapshot(snapshot, pageInfo)`: a missing `documents[0]` yields the
empty result (with `isPdf` from `pageInfo.mimeType`); otherwise decode the main
document and compute the PDF flag, the meta tags and the pointer map. -/
def analyzeSnapshot (snapshot : DOMSnapshot) (mimeType : Option String) : AnalyzeResult :=
  match snapshot.documents.head? with
  | none => ⟨fun _ => none, mimeType == some (("application/pdf")), fun _ => none⟩
  | some mainDocument =>
    let nm := processSnapshot mainDocument
    let detectedPdf := isPdfCheck snapshot nm.1 nm.2
    let meta := extractMeta snapshot nm.1 nm.2
    let cursorPointerNodes := findCursorPointerNodes snapshot
    ⟨meta, detectedPdf, cursorPointerNodes⟩

/- ============ extractor.ts ============ -/

/-- The interactive-role set of the box-candidate filter. -/
def interactiveRoles : List String :=
  ["button", "link", "checkbox", "radio", "combobox", "textbox", "menuitem"]

/-- The candidate filter of `getNodeBoundingBoxes`, exactly as written:
a truthy `backendDOMNodeId` and then focusable / interactive-role /
non-empty-name / truthy-`backendDOMNodeId` as disjuncts. -/
def boxCandidateFilter (node : AxNode) : Bool :=
  node.backendDOMNodeId != 0 &&
    (getAxNodeProperty node (("focusable")) == "true" ||
      interactiveRoles.contains (getAxNodeValue node.role) ||
      (node.name.bind (fun v => v.value)) != some (("")) ||
      node.backendDOMNodeId != 0)

/-- `nodesWithId` of `getNodeBoundingBoxes`. -/
def boxCandidates (axNodes : List AxNode) : List AxNode :=
  axNodes.filter boxCandidateFilter

/-- The remote object handle returned by `DOM.resolveNode` (only `objectId`
is consulted). -/
structure RemoteObject where
  objectId : Option String
deriving DecidableEq, Repr

/-- The instrumentation-channel outcomes seen by one node of the
`getEventListeners` batch: the `DOM.resolveNode` reply and the
`DOMDebugger.getEventListeners` reply (already projected to its event types);
`Except.error` models a rejected request. -/
structure ListenerQueryOutcome where
  resolveNode : Except Unit RemoteObject
  getListenersResult : Except Unit (List String)

/-- What one node of the `getEventListeners` batch produces: the listener-map
entry (if any) and whether `Runtime.releaseObject` was invoked. -/
structure ListenerNodeResult where
  entry : Option (List String)
  released : Bool
deriving DecidableEq, Repr

/-- The per-node `try`-block of `getEventListeners`: resolve the node; if the
handle has an `objectId`, query its listeners, record a non-empty event-type
list, then release the handle.  A rejection anywhere inside the `try` jumps to
the `catch`, which only logs — in particular a failed listener query skips the
release. -/
def processListenerNode (o : ListenerQueryOutcome) : ListenerNodeResult :=
  match o.resolveNode with
  | Except.error _ => ⟨none, false⟩
  | Except.ok obj =>
    match obj.objectId with
    | none => ⟨none, false⟩
    | some oid =>
      if oid = "" then ⟨none, false⟩
      else
        match o.getListenersResult with
        | Except.error _ => ⟨none, false⟩
        | Except.ok listeners =>
          ⟨if listeners.length ≠ 0 then some listeners else none, true⟩

/- ============ Concrete example inputs ============ -/

/-- An empty cursor-pointer map. -/
def emptyCursorMap : Nat → Option String := fun _ => none

/-- An empty event-listener map. -/
def emptyListenerMap : Nat → Option (List String) := fun _ => none

/-- An iframe oracle for pages without iframes. -/
def noIframeContent : AxNode → Option String := fun _ => none

/-- String pool shared by the PDF-detector example snapshots. -/
def pdfStrings : List String :=
  ["#document", "HTML", "HEAD", "BODY", "EMBED", "type", "application/pdf", "P"]

/-- `<html><head></head><body><embed type="application/pdf"></body></html>`
followed by an extra sibling `<p>` after the embed (node indices 0–5:
document, html, head, body, embed, p). -/
def pdfEmbedSiblingDoc : DocumentSnapshot :=
  ⟨⟨[-1, 0, 1, 1, 3, 3],
    [9, 1, 1, 1, 1, 1],
    [0, 1, 2, 3, 4, 7],
    [0, 0, 0, 0, 0, 0],
    [1, 2, 3, 4, 5, 6],
    [[], [], [], [], [5, 6], []],
    ⟨[], []⟩, ⟨[], []⟩, ⟨[], []⟩, ⟨[], []⟩, ⟨[]⟩, ⟨[]⟩, ⟨[]⟩⟩,
   ⟨[], []⟩,
   ⟨[]⟩⟩

/-- The same page with only the single embed (no extra sibling). -/
def pdfEmbedSingleDoc : DocumentSnapshot :=
  ⟨⟨[-1, 0, 1, 1, 3],
    [9, 1, 1, 1, 1],
    [0, 1, 2, 3, 4],
    [0, 0, 0, 0, 0],
    [1, 2, 3, 4, 5],
    [[], [], [], [], [5, 6]],
    ⟨[], []⟩, ⟨[], []⟩, ⟨[], []⟩, ⟨[], []⟩, ⟨[]⟩, ⟨[]⟩, ⟨[]⟩⟩,
   ⟨[], []⟩,
   ⟨[]⟩⟩

/-- The same page with the `<p>` placed *before* the embed (the first body
child is now the p, node index 4; the embed is node index 5). -/
def pdfEmbedAfterPDoc : DocumentSnapshot :=
  ⟨⟨[-1, 0, 1, 1, 3, 3],
    [9, 1, 1, 1, 1, 1],
    [0, 1, 2, 3, 7, 4],
    [0, 0, 0, 0, 0, 0],
    [1, 2, 3, 4, 5, 6],
    [[], [], [], [], [], [5, 6]],
    ⟨[], []⟩, ⟨[], []⟩, ⟨[], []⟩, ⟨[], []⟩, ⟨[]⟩, ⟨[]⟩, ⟨[]⟩⟩,
   ⟨[], []⟩,
   ⟨[]⟩⟩

/-- Snapshot with the trailing-sibling document. -/
def pdfSiblingSnapshot : DOMSnapshot := ⟨[pdfEmbedSiblingDoc], pdfStrings⟩

/-- Snapshot with the single-embed document. -/
def pdfSingleSnapshot : DOMSnapshot := ⟨[pdfEmbedSingleDoc], pdfStrings⟩

/-- Snapshot with the p-before-embed document. -/
def pdfPBeforeSnapshot : DOMSnapshot := ⟨[pdfEmbedAfterPDoc], pdfStrings⟩

/-- A document whose DOM child links form a cycle `1 → 2 → 3 → 1` (node 2 is
node 1's child, node 3 is node 2's child, and node 1 is node 3's child), with
node 1 carrying the `pointer` computed style. -/
def cyclicPointerDoc : DocumentSnapshot :=
  ⟨⟨[-1, 3, 1, 2],
    [9, 1, 1, 1],
    [1, 2, 3, 4],
    [0, 0, 0, 0],
    [5, 10, 20, 30],
    [[], [], [], []],
    ⟨[], []⟩, ⟨[], []⟩, ⟨[], []⟩, ⟨[], []⟩, ⟨[]⟩, ⟨[]⟩, ⟨[]⟩⟩,
   ⟨[1], [[0]]⟩,
   ⟨[]⟩⟩

/-- String pool for the cyclic example. -/
def cyclicStrings : List String := ["pointer", "DIV", "SPAN", "B", "I"]

/-- The cyclic-parent-links snapshot. -/
def cyclicPointerSnapshot : DOMSnapshot := ⟨[cyclicPointerDoc], cyclicStrings⟩

/-- AX root `RootWebArea` with one heading child (the `<h3>Hi</h3>` scenario). -/
def axHeadingRoot : AxNode :=
  { nodeId := "1", childIds := some ["2"],
    role := some ⟨"role", some "RootWebArea"⟩ }

/-- The heading node of the scenario: role `heading`, level 3, name `Hi`. -/
def axHeadingChild : AxNode :=
  { nodeId := "2", parentId := some "1",
    role := some ⟨"role", some "heading"⟩,
    name := some ⟨"computedString", some "Hi"⟩,
    properties := some [⟨"level", ⟨"integer", some "3"⟩⟩] }

/-- A heading node with an out-of-range explicit level `9`. -/
def headingLevel9Node : AxNode :=
  { nodeId := "9", properties := some [⟨"level", ⟨"integer", some "9"⟩⟩] }

/-- The `url` property of the link scenario. -/
def urlJsProp : AxProperty := ⟨"url", ⟨"string", some "javascript:void(0)"⟩⟩

/-- A `link` node with `url` = `javascript:void(0)` and name `Go`. -/
def linkGoNode : AxNode :=
  { nodeId := "1", backendDOMNodeId := 7,
    role := some ⟨"role", some "link"⟩,
    name := some ⟨"computedString", some "Go"⟩,
    properties := some [urlJsProp] }

/-- A `StaticText` node whose accessible name contains `<` and `>`. -/
def staticLtNode : AxNode :=
  { nodeId := "1",
    role := some ⟨"role", some "StaticText"⟩,
    name := some ⟨"computedString", some "a<b>c"⟩ }

/-- A node that has a parent (used to exhibit a root-less node list). -/
def orphanNode : AxNode :=
  { nodeId := "5", parentId := some "0" }

/-- A node with no accessible name at all. -/
def noNameNode : AxNode :=
  { nodeId := "x" }

/-- A focusable button-role node with a DOM binding and name `Press`. -/
def focusBtnNode : AxNode :=
  { nodeId := "b1", backendDOMNodeId := 42,
    role := some ⟨"role", some "button"⟩,
    name := some ⟨"computedString", some "Press"⟩,
    properties := some [⟨"focusable", ⟨"boolean", some "true"⟩⟩] }

/-- A synthesizer environment with no maps, no frame context, no filter. -/
def plainEnv : SynthEnv :=
  ⟨fun _ => none, emptyCursorMap, emptyListenerMap, none, false, [], noIframeContent⟩

/-- A synthesizer environment with an active viewport filter whose visible set
is empty. -/
def emptyFilterEnv : SynthEnv :=
  ⟨fun _ => none, emptyCursorMap, emptyListenerMap, none, true, [], noIframeContent⟩

/-- The viewport-scenario node: its box is `{y:1000, height:10}`. -/
def vpNodeEx : AxNode := { nodeId := "n1" }

/-- The viewport-scenario filter: viewport `{height:500}`, one box entry. -/
def vpFilterEx : ViewportFilter :=
  ⟨⟨0, 0, 800, 500⟩, [("n1", ⟨0, 1000, 50, 10⟩)]⟩

/-- Outcome where the handle resolves but the listener query is rejected. -/
def listenerFailureOutcome : ListenerQueryOutcome :=
  ⟨Except.ok ⟨some ("obj-1")⟩, Except.error ()⟩

/-- One parent-to-child step through the node map (`b` is listed among `a`'s
`childIds`); used to state what the combobox descendant-marking pass can
reach. -/
def childEdge (nodeMap : String → Option AxNode) (a b : String) : Prop :=
  ∃ n, nodeMap a = some n ∧ b ∈ n.childIds.getD []

/- ===================== Theorems ===================== -/

/-- C9: the candidate-selection filter of `getNodeBoundingBoxes` is logically
equivalent to the single predicate "truthy `backendDOMNodeId`": the final
disjunct subsumes the focusable/role/name conditions, and the name condition
`node.name?.value !== ''` also holds when the name is absent. -/
theorem boxCandidateFilter_equiv_backendId :
    (∀ axNodes : List AxNode,
      boxCandidates axNodes = axNodes.filter (fun n => n.backendDOMNodeId != 0)) ∧
    (∀ n : AxNode, n.name = none →
      ((n.name.bind (fun v => v.value)) != some ((""))) = true) := by
  constructor
  · intro axNodes
    unfold boxCandidates
    apply List.filter_congr
    intro n _
    unfold boxCandidateFilter
    cases hb : (n.backendDOMNodeId != 0) <;> simp [hb]
  · intro n hn
    rw [hn]
    rfl

/-- C9 witness: the name condition evaluated on a node with an absent name. -/
theorem boxCandidateFilter_equiv_backendId_witness :
    ((noNameNode.name.bind (fun v => v.value)) != some ((""))) = true :=
  boxCandidateFilter_equiv_backendId.2 noNameNode rfl

/-- C7 counterexample: the handle resolves successfully (with a truthy
`objectId`), the listener query is rejected, and `Runtime.releaseObject` is
NOT invoked — the release sits inside the `try`, not in a `finally`. -/
theorem releaseObject_skipped_on_listener_failure :
    listenerFailureOutcome.resolveNode = Except.ok ⟨some ("obj-1")⟩ ∧
    listenerFailureOutcome.getListenersResult = Except.error () ∧
    (processListenerNode listenerFailureOutcome).released = false :=
  ⟨rfl, rfl, rfl⟩

/-- C7 amended: `Runtime.releaseObject` is invoked exactly when the node
resolves to a handle with a truthy `objectId` AND the intervening
`getEventListeners` query succeeds; a rejected listener query skips the
release (the error is swallowed by the surrounding `catch`). -/
theorem releaseObject_released_iff (o : ListenerQueryOutcome) :
    (processListenerNode o).released = true ↔
      (∃ obj : RemoteObject, o.resolveNode = Except.ok obj ∧
        (∃ s, obj.objectId = some s ∧ s ≠ "") ∧
        ∃ ls, o.getListenersResult = Except.ok ls) := by
  rcases o with ⟨r, g⟩
  unfold processListenerNode
  cases r with
  | error e => simp
  | ok obj =>
    cases hobj : obj.objectId with
    | none => simp [hobj]
    | some oid =>
      by_cases hempty : oid = ""
      · subst hempty
        simp [hobj]
      · cases g with
        | error e => simp [hobj, hempty]
        | ok ls => simp [hobj, hempty]

/-- C8: a snapshot with no `documents[0]` yields the empty analysis result
(empty meta, `isPdf` false under the default page info, empty pointer map)
without failing; and an accessibility node list with no root (every node has a
parent) synthesizes to the empty string without failing. -/
theorem analyzeSnapshot_empty_on_missing_document :
    (∀ strings : List String,
      analyzeSnapshot ⟨[], strings⟩ none =
        ⟨fun _ => none, false, fun _ => none⟩) ∧
    (∀ (axNodes : List AxNode) (cp : Nat → Option String)
        (em : Nat → Option (List String)) (fc : Option String)
        (vf : Option ViewportFilter) (ic : AxNode → Option String),
      (∀ n ∈ axNodes, n.parentId.getD (("")) ≠ "") →
      axTreeToHtml axNodes cp em fc vf ic = "") := by
  constructor
  · intro strings
    rfl
  · intro axNodes cp em fc vf ic h
    have hf : axNodes.find? (fun n => n.parentId.getD (("")) == "") = none := by
      apply List.find?_eq_none.mpr
      intro n hn
      simpa using h n hn
    unfold axTreeToHtml
    rw [hf]

/-- C8 witness: both components at concrete inputs — the empty-documents
snapshot and a one-node list whose only node has a parent. -/
theorem analyzeSnapshot_empty_on_missing_document_witness :
    analyzeSnapshot ⟨[], pdfStrings⟩ none = ⟨fun _ => none, false, fun _ => none⟩ ∧
    axTreeToHtml [orphanNode] emptyCursorMap emptyListenerMap none none noIframeContent = "" :=
  ⟨analyzeSnapshot_empty_on_missing_document.1 pdfStrings,
   analyzeSnapshot_empty_on_missing_document.2 [orphanNode] emptyCursorMap emptyListenerMap
     none none noIframeContent (by intro n hn; simp at hn; subst hn; decide)⟩

/-- C1 counterexample: on the page whose body holds the PDF embed AND an extra
sibling `<p>` after it (body children are node indices 4 and 5), `isPdf` is
still `true` — the check only probes the FIRST body child, so "any deviation
(extra siblings) yields false" fails, as does the regression expectation
"same page with an extra sibling `<p>` → false". -/
theorem isPdf_true_despite_extra_sibling :
    (processSnapshot pdfEmbedSiblingDoc).2 3 = [4, 5] ∧
    (analyzeSnapshot pdfSiblingSnapshot none).isPdf = true := by
  constructor
  · decide
  · decide

/-- Helper: substring search succeeds on the right part of an append. -/
theorem containsSub_append_right (n xs ys : List Char) (h : containsSub n ys = true) :
    containsSub n (xs ++ ys) = true := by
  induction xs with
  | nil => simpa
  | cons x xs ih =>
    show (n.isPrefixOf (x :: (xs ++ ys)) || containsSub n (xs ++ ys)) = true
    rw [ih]
    simp

/-- Helper: substring search succeeds when the needle starts the haystack. -/
theorem containsSub_here (n ys : List Char) : containsSub n (n ++ ys) = true := by
  cases n with
  | nil => cases ys <;> simp [containsSub, List.isEmpty]
  | cons a t =>
    show ((a :: t).isPrefixOf ((a :: t) ++ ys) || _) = true
    have hp : (a :: t).isPrefixOf ((a :: t) ++ ys) = true :=
      List.isPrefixOf_iff_prefix.mpr (List.prefix_append _ _)
    rw [hp]
    simp

/-- Helper: substring search succeeds anywhere inside an append chain. -/
theorem containsSub_middle (pre n post : List Char) :
    containsSub n (pre ++ (n ++ post)) = true :=
  containsSub_append_right n pre (n ++ post) (containsSub_here n post)

/-- Helper: `joinSep` puts the last element at the tail of the joined string. -/
theorem joinSep_concat (sep : String) (l : List String) (x : String) :
    ∃ pre : String, joinSep sep (l ++ [x]) = pre ++ x := by
  induction l with
  | nil =>
    refine ⟨"", ?_⟩
    show joinSep sep [x] = "" ++ x
    have hx : ("" : String) ++ x = x := by simp
    rw [hx]
    rfl
  | cons y ys ih =>
    obtain ⟨pre, hp⟩ := ih
    cases ys with
    | nil =>
      refine ⟨y ++ sep, ?_⟩
      show y ++ sep ++ joinSep sep [x] = y ++ sep ++ x
      rfl
    | cons z zs =>
      refine ⟨y ++ sep ++ pre, ?_⟩
      show y ++ sep ++ joinSep sep ((z :: zs) ++ [x]) = y ++ sep ++ pre ++ x
      rw [hp]
      rw [String.append_assoc (y ++ sep) pre x]

/-- C1 amended: `isPdf` probes only the path document → first child → that
node's second child → that node's first child, and tests that node's attribute
strings for one of the three MIME markers; tag names and trailing siblings are
not examined.  Concretely: the single-embed `application/pdf` page yields
`true`, the same page with an extra `<p>` sibling *after* the embed still
yields `true`, and with the `<p>` *before* the embed (displacing the first
body child) it yields `false`. -/
theorem isPdf_amended :
    (∀ (doc : DocumentSnapshot) (docs : List DocumentSnapshot) (strings : List String)
        (mt : Option String),
      (analyzeSnapshot ⟨doc :: docs, strings⟩ mt).isPdf = true ↔
        ∃ h b e nd,
          ((processSnapshot doc).2 0)[0]? = some h ∧ h ≠ 0 ∧
          ((processSnapshot doc).2 h)[1]? = some b ∧ b ≠ 0 ∧
          ((processSnapshot doc).2 b)[0]? = some e ∧ e ≠ 0 ∧
          (processSnapshot doc).1 e = some nd ∧
          ((nd.attributes.map (getStringN strings)).contains ("application/pdf") ||
            (nd.attributes.map (getStringN strings)).contains ("application/x-pdf") ||
            (nd.attributes.map (getStringN strings)).contains
              ("application/x-google-chrome-pdf")) = true) ∧
    (analyzeSnapshot pdfSingleSnapshot none).isPdf = true ∧
    (analyzeSnapshot pdfSiblingSnapshot none).isPdf = true ∧
    (analyzeSnapshot pdfPBeforeSnapshot none).isPdf = false := by
  refine ⟨?_, by decide, by decide, by decide⟩
  intro doc docs strings mt
  have heq : (analyzeSnapshot ⟨doc :: docs, strings⟩ mt).isPdf =
      isPdfCheck ⟨doc :: docs, strings⟩ (processSnapshot doc).1 (processSnapshot doc).2 := rfl
  rw [heq]
  unfold isPdfCheck
  simp only [List.get?_eq_getElem?]
  cases hh : ((processSnapshot doc).2 0)[0]? with
  | none => simp [hh]
  | some h =>
    by_cases hz : h = 0
    · subst hz
      simp [hh]
    · simp only [hz, if_false]
      cases hb : ((processSnapshot doc).2 h)[1]? with
      | none => simp [hh, hb, hz]
      | some b =>
        by_cases hbz : b = 0
        · subst hbz
          simp [hh, hb, hz]
        · simp only [hbz, if_false]
          cases he : ((processSnapshot doc).2 b)[0]? with
          | none => simp [hh, hb, he, hz, hbz]
          | some e =>
            by_cases hez : e = 0
            · subst hez
              simp [hh, hb, he, hz, hbz]
            · simp only [hez, if_false]
              cases hnd : (processSnapshot doc).1 e with
              | none => simp [hh, hb, he, hnd, hz, hbz, hez]
              | some nd => simp [hh, hb, he, hnd, hz, hbz, hez]

/-- C4 counterexample: the scenario tree `[RootWebArea, heading(level=3, "Hi")]`
does NOT synthesize to exactly `<h3>Hi</h3>` (the `RootWebArea` root is itself
rendered as a `body` wrapper), and an out-of-range explicit level `9` is not
clamped into 1–6 but falls back to `h2`. -/
theorem heading_scenario_counterexample :
    axTreeToHtml [axHeadingRoot, axHeadingChild] emptyCursorMap emptyListenerMap none none
      noIframeContent ≠ "<h3>Hi</h3>" ∧
    headingLevelOf headingLevel9Node = 9 ∧
    getTagNameForAxNode (("heading")) headingLevel9Node none = "h2" := by
  refine ⟨by decide, by decide, by decide⟩

/-- C4 amended: for a non-editable heading node the synthesizer chooses
`h{level}` when the explicit `level` property parses (JS `parseInt`, with `0`
and `NaN` falling back to `2`) to a value in 1–6, and otherwise `h2` — levels
outside 1–6 are not clamped; the scenario tree synthesizes to
`<body><h3>Hi</h3></body>`, the heading itself rendered as `<h3>Hi</h3>`. -/
theorem heading_tag_amended :
    (∀ (axNode : AxNode) (parent : Option AxNode),
      getAxNodeProperty axNode (("editable")) = "" →
      getTagNameForAxNode (("heading")) axNode parent =
        if 1 ≤ headingLevelOf axNode ∧ headingLevelOf axNode ≤ 6 then
          "h" ++ toString (headingLevelOf axNode)
        else "h2") ∧
    axTreeToHtml [axHeadingRoot, axHeadingChild] emptyCursorMap emptyListenerMap none none
      noIframeContent = "<body><h3>Hi</h3></body>" := by
  constructor
  · intro axNode parent hed
    have htab : (axRoleToHtmlTag (("heading"))).getD (("div")) = "h2" := rfl
    unfold getTagNameForAxNode
    rw [hed, htab]
    simp
  · decide

/-- C4 amended witness: the general heading rule applied to the level-3
scenario heading node. -/
theorem heading_tag_amended_witness :
    getTagNameForAxNode (("heading")) axHeadingChild none = "h3" := by
  rw [heading_tag_amended.1 axHeadingChild none rfl]
  decide

/-- C6: a `url` property whose value starts with `data:`, `blob:` or `file:`
emits no attribute; otherwise the value is emitted as `src` when the node's
role is `image` and as `href` otherwise, with a `javascript:` value rewritten
to `#`; and the scenario link node with url `javascript:void(0)` and name `Go`
synthesizes to exactly `<a href="#">Go</a>`. -/
theorem url_attribute_projection :
    (∀ (axNode : AxNode) (parent : Option AxNode) (p : AxProperty),
      p.name = "url" →
      (startsWithJs (getAxNodeValue (some p.value)) (("data:")) = true ∨
        startsWithJs (getAxNodeValue (some p.value)) (("blob:")) = true ∨
        startsWithJs (getAxNodeValue (some p.value)) (("file:")) = true) →
      ariaAttrForProp axNode parent p = []) ∧
    (∀ (axNode : AxNode) (parent : Option AxNode) (p : AxProperty),
      p.name = "url" →
      getAxNodeValue (some p.value) ≠ "" →
      startsWithJs (getAxNodeValue (some p.value)) (("data:")) = false →
      startsWithJs (getAxNodeValue (some p.value)) (("blob:")) = false →
      startsWithJs (getAxNodeValue (some p.value)) (("file:")) = false →
      ariaAttrForProp axNode parent p =
        [(if getAxNodeValue axNode.role = "image" then "src=\"" else "href=\"") ++
          escapeHTML
            (if startsWithJs (getAxNodeValue (some p.value)) (("javascript:")) then "#"
             else getAxNodeValue (some p.value)) ++ "\""]) ∧
    axTreeToHtml [linkGoNode] emptyCursorMap emptyListenerMap none none noIframeContent =
      "<a href=\"#\">Go</a>" := by
  have c1 : bareBoolProps.contains ("url") = false := rfl
  have c2 : ariaBoolProps.contains ("url") = false := rfl
  have c3 : ariaStringProps.contains ("url") = false := rfl
  refine ⟨?_, ?_, by decide⟩
  · intro axNode parent p hname hstarts
    unfold ariaAttrForProp
    rw [hname]
    simp only [c1, c2, c3, if_false, Bool.false_eq_true]
    rcases hstarts with h | h | h <;> simp [h]
  · intro axNode parent p hname hv hd hb hf
    unfold ariaAttrForProp
    rw [hname]
    simp only [c1, c2, c3, if_false, Bool.false_eq_true]
    simp only [hv, hd, hb, hf]
    by_cases him : getAxNodeValue axNode.role = "image" <;> simp [him, hv]

/-- C6 witness: the suppression and emission rules applied to the concrete
scenario `url` property. -/
theorem url_attribute_projection_witness :
    ariaAttrForProp linkGoNode none urlJsProp = ["href=\"#\""] ∧
    ariaAttrForProp linkGoNode none ⟨"url", ⟨"string", some "data:text/plain,x"⟩⟩ = [] := by
  constructor
  · rw [url_attribute_projection.2.1 linkGoNode none urlJsProp rfl (by decide) (by decide)
      (by decide) (by decide)]
    decide
  · exact url_attribute_projection.1 linkGoNode none _ rfl (Or.inl (by decide))

/-- Helper: `String.toList` distributes over append (definitionally). -/
theorem strToList_append (a b : String) : (a ++ b).toList = a.toList ++ b.toList := rfl

/-- C10: HTML escaping is applied only to attribute values; accessible names
rendered as text content are inserted verbatim.  (1) a `StaticText` leaf
returns its name unchanged; (2) a `ListMarker` returns its name unchanged;
(3) a non-empty name used as a tag's text content (no rendered children,
non-self-closing tag) appears verbatim inside the emitted element; (4) on the
concrete node whose name is `a<b>c` the unescaped `<`/`>` appear in the output
HTML; (5) the `value` attribute, by contrast, passes through `escapeHTML`. -/
theorem names_inserted_verbatim :
    (∀ (env : SynthEnv) (f : Nat) (node : AxNode) (st : SynthSt),
      st.visited node.nodeId = none →
      env.hasViewportFilter = false →
      getAxNodeValue node.role = "StaticText" →
      (buildHtml env (f + 1) node st).1 = getAxNodeValue node.name) ∧
    (∀ (env : SynthEnv) (f : Nat) (node : AxNode) (st : SynthSt),
      st.visited node.nodeId = none →
      env.hasViewportFilter = false →
      getAxNodeValue node.role = "ListMarker" →
      getAxNodeProperty node (("hidden")) ≠ "true" →
      node.ignored = false →
      (buildHtml env (f + 1) node st).1 = getAxNodeValue node.name) ∧
    (∀ (env : SynthEnv) (bc : AxNode → SynthSt → String × SynthSt) (node : AxNode)
        (st : SynthSt) (role : String) (parent : Option AxNode) (aria : List String)
        (ii ig igen : Bool),
      (bc node st).1 = "" →
      selfClosingTags.contains (synthTag env node parent role ii ig) = false →
      synthTag env node parent role ii ig ≠ "iframe" →
      getAxNodeValue node.name ≠ "" →
      containsSub (getAxNodeValue node.name).toList
        ((emitElement env bc node st role parent aria ii ig igen).1).toList = true) ∧
    (axTreeToHtml [staticLtNode] emptyCursorMap emptyListenerMap none none noIframeContent =
      "a<b>c") ∧
    (∀ (axNode : AxNode) (tag : String) (t v : String),
      axNode.value = some ⟨t, some v⟩ →
      t ≠ "valueUndefined" →
      v ≠ "" →
      tag ≠ "textarea" →
      tag ≠ "div" →
      valueAttrs axNode tag = ["value=\"" ++ escapeHTML v ++ "\""]) := by
  refine ⟨?_, ?_, ?_, by decide, ?_⟩
  · intro env f node st hv hfil hrole
    simp [buildHtml, hv, hfil, hrole]
  · intro env f node st hv hfil hrole hhid hign
    simp [buildHtml, hv, hfil, hrole, hhid, hign, ignoredRoles]
  · intro env bc node st role parent aria ii ig igen hbc hsc hif hlab
    unfold emitElement emitTail
    simp only [hif, hbc, hsc, hlab, if_false, ite_false, if_true, ite_true, ne_eq,
      not_false_eq_true, and_true, true_and, false_and, and_false, if_neg, Bool.false_eq_true,
      not_true_eq_false]
    simp only [strToList_append, List.append_assoc]
    apply containsSub_append_right
    apply containsSub_append_right
    apply containsSub_append_right
    apply containsSub_append_right
    exact containsSub_here _ _
  · intro axNode tag t v hval ht hv2 hta htd
    unfold valueAttrs
    rw [hval]
    simp [ht, hv2, hta, htd, getAxNodeValue]

/-- C10 witness: the `StaticText` rule evaluated on the concrete node whose
name is `a<b>c`. -/
theorem names_inserted_verbatim_witness :
    (buildHtml plainEnv 1 staticLtNode ⟨fun _ => none⟩).1 = "a<b>c" :=
  (names_inserted_verbatim.1 plainEnv 0 staticLtNode ⟨fun _ => none⟩ rfl rfl rfl).trans
    (by decide)

/-- Helper: a three-piece needle found at the head of a longer append chain. -/
theorem containsSub_here3 (a b c d : List Char) :
    containsSub (a ++ (b ++ c)) (a ++ (b ++ (c ++ d))) = true := by
  have h : a ++ (b ++ (c ++ d)) = (a ++ (b ++ c)) ++ d := by simp [List.append_assoc]
  rw [h]
  exact containsSub_here _ _

/-- C5: whenever a synthesized element passes the emission gate, is focusable
or independently interactive, has a DOM binding, and is not an iframe replaced
by its content, the serialized output carries the stable identifier attribute
`node="<id>"`; the id is the bare backend id without a frame context and the
`<frameContextId>:<backendId>` form inside a recursed frame. -/
theorem interactive_node_id_marker :
    (∀ (env : SynthEnv) (axNode : AxNode) (ii : Bool) (tag childrenHtml : String)
        (attrs2 : List String) (st1 : SynthSt),
      ¬(childrenHtml = "" ∧ attrs2 = []) →
      (getAxNodeProperty axNode (("focusable")) = "true" ∨ ii = true) →
      axNode.backendDOMNodeId ≠ 0 →
      tag ≠ "iframe" →
      containsSub (("node=\"" ++ nodeIdValue env axNode ++ "\"").toList)
        ((emitTail env axNode ii tag childrenHtml attrs2 st1).1).toList = true) ∧
    (∀ (env : SynthEnv) (axNode : AxNode),
      env.frameContextId = none →
      nodeIdValue env axNode = toString axNode.backendDOMNodeId) ∧
    (∀ (env : SynthEnv) (axNode : AxNode) (fc : String),
      env.frameContextId = some fc → fc ≠ "" →
      nodeIdValue env axNode = fc ++ ":" ++ toString axNode.backendDOMNodeId) := by
  refine ⟨?_, ?_, ?_⟩
  · intro env axNode ii tag childrenHtml attrs2 st1 hg hfoc hbid htag
    have hcond : (getAxNodeProperty axNode (("focusable")) = "true" ∨ ii = true) ∧
        axNode.backendDOMNodeId ≠ 0 := ⟨hfoc, hbid⟩
    unfold emitTail
    rw [if_neg hg]
    simp only [if_pos hcond]
    obtain ⟨pre, hpre⟩ :=
      joinSep_concat (" ") attrs2 ("node=\"" ++ nodeIdValue env axNode ++ "\"")
    rw [hpre]
    have hlen : (attrs2 ++ ["node=\"" ++ nodeIdValue env axNode ++ "\""]).length = 0 → False := by
      simp
    by_cases hself : selfClosingTags.contains tag = true
    · simp only [hself, if_true, ite_true, if_neg hlen]
      simp only [strToList_append, List.append_assoc]
      apply containsSub_append_right
      apply containsSub_append_right
      apply containsSub_append_right
      apply containsSub_append_right
      exact containsSub_here3 _ _ _ _
    · have hself2 : selfClosingTags.contains tag = false := by
        cases h2 : selfClosingTags.contains tag
        · rfl
        · exact absurd h2 hself
      have hifr : ¬(tag = "iframe" ∧ childrenHtml ≠ "") := fun hc => htag hc.1
      simp only [hself2, Bool.false_eq_true, if_false, ite_false, if_neg hifr, if_neg hlen]
      simp only [strToList_append, List.append_assoc]
      apply containsSub_append_right
      apply containsSub_append_right
      apply containsSub_append_right
      apply containsSub_append_right
      exact containsSub_here3 _ _ _ _
  · intro env axNode hfc
    unfold nodeIdValue
    rw [hfc]
  · intro env axNode fc hfc hne
    unfold nodeIdValue
    rw [hfc]
    simp [hne]

/-- C5 witness: the marker rule at a concrete focusable node with backend id
42, tag `div`, text content `Press`. -/
theorem interactive_node_id_marker_witness :
    containsSub (("node=\"42\"").toList)
      ((emitTail plainEnv focusBtnNode false ("div") ("Press") [] ⟨fun _ => none⟩).1).toList =
      true :=
  interactive_node_id_marker.1 plainEnv focusBtnNode false ("div") ("Press") []
    ⟨fun _ => none⟩ (by simp) (Or.inl rfl) (by decide) (by decide)

/-- Helper: membership in the JS-`Set.add` model. -/
theorem mem_addUnique (l : List String) (x y : String) :
    y ∈ addUnique l x ↔ y ∈ l ∨ y = x := by
  unfold addUnique
  split
  · rename_i hc
    constructor
    · exact Or.inl
    · rintro (h | rfl)
      · exact h
      · exact List.elem_iff.mp hc
  · simp [List.mem_append]

/-- Helper: membership after folding `addUnique` over a list. -/
theorem mem_foldl_addUnique (l : List String) (acc : List String) (y : String) :
    y ∈ l.foldl addUnique acc ↔ y ∈ acc ∨ y ∈ l := by
  induction l generalizing acc with
  | nil => simp
  | cons x xs ih =>
    show y ∈ xs.foldl addUnique (addUnique acc x) ↔ _
    rw [ih, mem_addUnique]
    simp [or_assoc]

/-- Helper: everything the first (direct-visibility + ancestors) marking pass
collects is either a directly visible box owner or on some visible owner's
parent chain. -/
theorem stage1Visible_mem (nodeMap : String → Option AxNode) (vf : ViewportFilter)
    (fuel : Nat) (id : String) (h : id ∈ stage1Visible nodeMap vf fuel) :
    ∃ entry ∈ vf.nodeBoundingBoxes,
      isNodeInViewport entry.2 vf.viewportInfo false = true ∧
      (id = entry.1 ∨ id ∈ parentChainIds nodeMap fuel (nodeMap entry.1)) := by
  unfold stage1Visible at h
  suffices haux : ∀ (entries : List (String × BoundingBox)) (acc : List String),
      id ∈ entries.foldl
        (fun acc entry =>
          if isNodeInViewport entry.2 vf.viewportInfo false then
            (parentChainIds nodeMap fuel (nodeMap entry.1)).foldl addUnique
              (addUnique acc entry.1)
          else acc) acc →
      id ∈ acc ∨ ∃ entry ∈ entries,
        isNodeInViewport entry.2 vf.viewportInfo false = true ∧
        (id = entry.1 ∨ id ∈ parentChainIds nodeMap fuel (nodeMap entry.1)) by
    rcases haux vf.nodeBoundingBoxes [] h with h2 | h2
    · exact absurd h2 (List.not_mem_nil id)
    · exact h2
  intro entries
  induction entries with
  | nil => intro acc h2; exact Or.inl h2
  | cons e es ih =>
    intro acc h2
    rcases ih _ h2 with h3 | h3
    · dsimp only at h3
      by_cases hv : isNodeInViewport e.2 vf.viewportInfo false = true
      · rw [if_pos hv] at h3
        rw [mem_foldl_addUnique, mem_addUnique] at h3
        rcases h3 with (h4 | h4) | h4
        · exact Or.inl h4
        · exact Or.inr ⟨e, List.mem_cons_self e es, hv, Or.inl h4⟩
        · exact Or.inr ⟨e, List.mem_cons_self e es, hv, Or.inr h4⟩
      · rw [if_neg hv] at h3
        exact Or.inl h3
    · obtain ⟨entry, hm, hrest⟩ := h3
      exact Or.inr ⟨entry, List.mem_cons_of_mem e hm, hrest⟩

/-- Helper: everything the descendant-marking worklist adds is either already
visible or reachable from the initial queue through `childIds` edges. -/
theorem comboboxClosureLoop_mem (nodeMap : String → Option AxNode) (allIds : Finset String) :
    ∀ (queue visible : List String) (id : String),
      id ∈ comboboxClosureLoop nodeMap allIds queue visible →
      id ∈ visible ∨ ∃ s ∈ queue, Relation.ReflTransGen (childEdge nodeMap) s id := by
  intro queue visible
  induction queue, visible using comboboxClosureLoop.induct nodeMap allIds with
  | case1 visible =>
    intro id h
    rw [comboboxClosureLoop] at h
    exact Or.inl h
  | case2 q rest visible hskip ih =>
    intro id h
    rw [comboboxClosureLoop] at h
    rw [dif_pos hskip] at h
    rcases ih id h with h2 | ⟨s, hs, hr⟩
    · exact Or.inl h2
    · exact Or.inr ⟨s, List.mem_cons_of_mem q hs, hr⟩
  | case3 q rest visible hskip visible2 kids hmem ih =>
    intro id h
    rw [comboboxClosureLoop] at h
    rw [dif_neg hskip] at h
    simp only [dif_pos hmem] at h
    rcases ih id h with h2 | ⟨s, hs, hr⟩
    · rcases List.mem_append.mp h2 with h3 | h3
      · exact Or.inl h3
      · have hq : id = q := by simpa using h3
        exact Or.inr ⟨q, List.mem_cons_self q rest, hq ▸ Relation.ReflTransGen.refl⟩
    · rcases List.mem_append.mp hs with h3 | h3
      · exact Or.inr ⟨s, List.mem_cons_of_mem q h3, hr⟩
      · refine Or.inr ⟨q, List.mem_cons_self q rest, Relation.ReflTransGen.head ?_ hr⟩
        have h3m : s ∈ (match nodeMap q with
          | none => ([] : List String)
          | some n => n.childIds.getD []) := h3
        cases hnm : nodeMap q with
        | none =>
          rw [hnm] at h3m
          simp at h3m
        | some n =>
          rw [hnm] at h3m
          exact ⟨n, hnm, h3m⟩
  | case4 q rest visible hskip visible2 hmem ih =>
    intro id h
    rw [comboboxClosureLoop] at h
    rw [dif_neg hskip] at h
    simp only [dif_neg hmem] at h
    rcases ih id h with h2 | ⟨s, hs, hr⟩
    · rcases List.mem_append.mp h2 with h3 | h3
      · exact Or.inl h3
      · have hq : id = q := by simpa using h3
        exact Or.inr ⟨q, List.mem_cons_self q rest, hq ▸ Relation.ReflTransGen.refl⟩
    · exact Or.inr ⟨s, List.mem_cons_of_mem q hs, hr⟩

/-- Helper: everything the combobox stage adds beyond its input is reachable
through `childIds` edges from the children of some combobox in the input
snapshot. -/
theorem comboboxStage_mem (nodeMap : String → Option AxNode) (allIds : Finset String)
    (visible : List String) (id : String) (h : id ∈ comboboxStage nodeMap allIds visible) :
    id ∈ visible ∨ ∃ cb ∈ visible, ∃ n, nodeMap cb = some n ∧
      getAxNodeValue n.role = "combobox" ∧
      ∃ s ∈ n.childIds.getD [], Relation.ReflTransGen (childEdge nodeMap) s id := by
  unfold comboboxStage at h
  suffices haux : ∀ (l acc : List String),
      id ∈ l.foldl
        (fun vis nodeId =>
          match nodeMap nodeId with
          | none => vis
          | some node =>
            if getAxNodeValue node.role = "combobox" then
              comboboxClosureLoop nodeMap allIds (node.childIds.getD []) vis
            else vis) acc →
      id ∈ acc ∨ ∃ cb ∈ l, ∃ n, nodeMap cb = some n ∧
        getAxNodeValue n.role = "combobox" ∧
        ∃ s ∈ n.childIds.getD [], Relation.ReflTransGen (childEdge nodeMap) s id by
    exact haux visible visible h
  intro l
  induction l with
  | nil => intro acc h2; exact Or.inl h2
  | cons cb cbs ih =>
    intro acc h2
    rcases ih _ h2 with h3 | h3
    · dsimp only at h3
      cases hnm : nodeMap cb with
      | none =>
        rw [hnm] at h3
        exact Or.inl h3
      | some n =>
        rw [hnm] at h3
        dsimp only at h3
        by_cases hrole : getAxNodeValue n.role = "combobox"
        · rw [if_pos hrole] at h3
          rcases comboboxClosureLoop_mem nodeMap allIds _ _ _ h3 with h4 | ⟨s, hs, hr⟩
          · exact Or.inl h4
          · exact Or.inr ⟨cb, List.mem_cons_self cb cbs, n, hnm, hrole, s, hs, hr⟩
        · rw [if_neg hrole] at h3
          exact Or.inl h3
    · obtain ⟨cb2, hm, hrest⟩ := h3
      exact Or.inr ⟨cb2, List.mem_cons_of_mem cb hm, hrest⟩

/-- C3: under a supplied viewport filter, (a) direct visibility looks only at
`y`/`height` — the horizontal coordinates are ignored; (b) a box
`{y:1000, height:10}` against a viewport `{height:500}` is not directly
visible, whatever the horizontal values; (c) every id the filter marks visible
is either the owner of a directly visible box, on the parent chain of such an
owner, or reachable through `childIds` edges from the children of a visible
`combobox` — so a node that is none of these is pruned; and (d) a filtered-out
node contributes nothing to the output, children included. -/
theorem viewport_pruning :
    (∀ (b1 b2 vp : BoundingBox), b1.y = b2.y → b1.height = b2.height →
      isNodeInViewport b1 vp false = isNodeInViewport b2 vp false) ∧
    (∀ (x w vx vy vw : Int),
      isNodeInViewport ⟨x, 1000, w, 10⟩ ⟨vx, vy, vw, 500⟩ false = false) ∧
    (∀ (axNodes : List AxNode) (vf : ViewportFilter) (id : String),
      id ∈ computeVisibleNodeIds axNodes vf →
      (∃ entry ∈ vf.nodeBoundingBoxes,
        isNodeInViewport entry.2 vf.viewportInfo false = true ∧
        (id = entry.1 ∨
          id ∈ parentChainIds (nodeMapOf axNodes) axNodes.length
            (nodeMapOf axNodes entry.1))) ∨
      (∃ cb, (∃ entry ∈ vf.nodeBoundingBoxes,
          isNodeInViewport entry.2 vf.viewportInfo false = true ∧
          (cb = entry.1 ∨
            cb ∈ parentChainIds (nodeMapOf axNodes) axNodes.length
              (nodeMapOf axNodes entry.1))) ∧
        ∃ n, nodeMapOf axNodes cb = some n ∧ getAxNodeValue n.role = "combobox" ∧
          ∃ s ∈ n.childIds.getD [],
            Relation.ReflTransGen (childEdge (nodeMapOf axNodes)) s id)) ∧
    (∀ (env : SynthEnv) (node : AxNode) (st : SynthSt) (fuel : Nat),
      env.hasViewportFilter = true →
      env.visibleNodeIds.contains node.nodeId = false →
      (buildHtml env (fuel + 1) node st).1 = "") := by
  refine ⟨?_, ?_, ?_, ?_⟩
  · intro b1 b2 vp hy hh
    unfold isNodeInViewport
    rw [hy, hh]
    simp
  · intro x w vx vy vw
    unfold isNodeInViewport
    norm_num
  · intro axNodes vf id h
    unfold computeVisibleNodeIds at h
    rcases comboboxStage_mem _ _ _ _ h with h2 | ⟨cb, hcb, n, hn, hrole, s, hs, hr⟩
    · exact Or.inl (stage1Visible_mem _ _ _ _ h2)
    · exact Or.inr ⟨cb, stage1Visible_mem _ _ _ _ hcb, n, hn, hrole, s, hs, hr⟩
  · intro env node st fuel hfil hvis
    have hvis2 : node.nodeId ∉ env.visibleNodeIds := by simpa using hvis
    by_cases hv : (st.visited node.nodeId).isSome
    · simp [buildHtml, hv]
    · simp [buildHtml, hv, hfil, hvis2]

/-- C3 witness: the scenario box `{y:1000,height:10}` against `{height:500}`
is not directly visible, and a node outside the computed visible set emits
nothing. -/
theorem viewport_pruning_witness :
    isNodeInViewport ⟨0, 1000, 50, 10⟩ ⟨0, 0, 800, 500⟩ false = false ∧
    (buildHtml emptyFilterEnv 1 vpNodeEx ⟨fun _ => none⟩).1 = "" :=
  ⟨viewport_pruning.2.1 0 50 0 0 800,
   viewport_pruning.2.2.2 emptyFilterEnv vpNodeEx ⟨fun _ => none⟩ 0 rfl rfl⟩

/-- Helper: the marking worklist only ever grows the processed set. -/
theorem markLoop_processed_mono (nodes : NodeTreeSnapshot) (strings : List String)
    (cm : Nat → List Nat) (allIds : Finset Nat) :
    ∀ (stack : List Nat) (st : PtrSt),
      st.processed ⊆ (markLoop nodes strings cm allIds stack st).processed := by
  intro stack st
  induction stack, st using markLoop.induct nodes strings cm allIds with
  | case1 st =>
    rw [markLoop]
  | case2 c rest st cb hcond =>
    rename_i ih
    rw [markLoop]
    rw [dif_pos hcond]
    exact ih
  | case3 c rest st cb hskip nn st2 hmem =>
    rename_i ih
    rw [markLoop]
    rw [dif_neg hskip]
    simp only [dif_pos hmem]
    exact fun k hk => ih (Finset.mem_insert_of_mem hk)
  | case4 c rest st cb hskip nn st2 hmem =>
    rename_i ih
    rw [markLoop]
    rw [dif_neg hskip]
    simp only [dif_neg hmem]
    exact fun k hk => ih (Finset.mem_insert_of_mem hk)

/-- Helper: the marking worklist never removes a pointer-map entry. -/
theorem markLoop_ptr_mono (nodes : NodeTreeSnapshot) (strings : List String)
    (cm : Nat → List Nat) (allIds : Finset Nat) :
    ∀ (stack : List Nat) (st : PtrSt) (k : Nat),
      st.ptr k ≠ none → (markLoop nodes strings cm allIds stack st).ptr k ≠ none := by
  intro stack st
  induction stack, st using markLoop.induct nodes strings cm allIds with
  | case1 st =>
    intro k hk
    rw [markLoop]
    exact hk
  | case2 c rest st cb hcond =>
    rename_i ih
    intro k hk
    rw [markLoop, dif_pos hcond]
    exact ih k hk
  | case3 c rest st cb hskip nn st2 hmem =>
    rename_i ih
    intro k hk
    rw [markLoop, dif_neg hskip]
    simp only [dif_pos hmem]
    apply ih
    have hptr : st2.ptr k = if k = cb then some nn else st.ptr k := rfl
    rw [hptr]
    split
    · simp
    · exact hk
  | case4 c rest st cb hskip nn st2 hmem =>
    rename_i ih
    intro k hk
    rw [markLoop, dif_neg hskip]
    simp only [dif_neg hmem]
    apply ih
    have hptr : st2.ptr k = if k = cb then some nn else st.ptr k := rfl
    rw [hptr]
    split
    · simp
    · exact hk

/-- Helper: the marking worklist preserves "every processed id has a map
entry". -/
theorem markLoop_domok (nodes : NodeTreeSnapshot) (strings : List String)
    (cm : Nat → List Nat) (allIds : Finset Nat) :
    ∀ (stack : List Nat) (st : PtrSt),
      DomOk st → DomOk (markLoop nodes strings cm allIds stack st) := by
  intro stack st
  induction stack, st using markLoop.induct nodes strings cm allIds with
  | case1 st =>
    intro h
    rw [markLoop]
    exact h
  | case2 c rest st cb hcond =>
    rename_i ih
    intro h
    rw [markLoop, dif_pos hcond]
    exact ih h
  | case3 c rest st cb hskip nn st2 hmem =>
    rename_i ih
    intro h
    rw [markLoop, dif_neg hskip]
    simp only [dif_pos hmem]
    apply ih
    intro k hk
    have hptr : st2.ptr k = if k = cb then some nn else st.ptr k := rfl
    rw [hptr]
    split
    · simp
    · rename_i hne
      have hk2 : k ∈ st.processed := by
        rcases Finset.mem_insert.mp hk with h2 | h2
        · exact absurd h2 hne
        · exact h2
      exact h k hk2
  | case4 c rest st cb hskip nn st2 hmem =>
    rename_i ih
    intro h
    rw [markLoop, dif_neg hskip]
    simp only [dif_neg hmem]
    apply ih
    intro k hk
    have hptr : st2.ptr k = if k = cb then some nn else st.ptr k := rfl
    rw [hptr]
    split
    · simp
    · rename_i hne
      have hk2 : k ∈ st.processed := by
        rcases Finset.mem_insert.mp hk with h2 | h2
        · exact absurd h2 hne
        · exact h2
      exact h k hk2

/-- Helper: under injective nonzero backend ids (and a covering universe), the
marking worklist turns a state whose obligations sit on the stack into a fully
child-closed processed set. -/
theorem markLoop_closed (nodes : NodeTreeSnapshot) (strings : List String)
    (cm : Nat → List Nat) (allIds : Finset Nat) (hinj : BidInj nodes)
    (hall : ∀ x, bidOf nodes x = 0 ∨ bidOf nodes x ∈ allIds) :
    ∀ (stack : List Nat) (st : PtrSt),
      PtrClosed nodes cm st.processed stack →
      PtrClosed nodes cm (markLoop nodes strings cm allIds stack st).processed [] := by
  intro stack st
  induction stack, st using markLoop.induct nodes strings cm allIds with
  | case1 st =>
    intro h
    rw [markLoop]
    exact h
  | case2 c rest st cb hcond =>
    rename_i ih
    intro h
    rw [markLoop, dif_pos hcond]
    apply ih
    intro x hbx hpx y hy hby
    rcases h x hbx hpx y hy hby with h2 | h2
    · exact Or.inl h2
    · rcases List.mem_cons.mp h2 with rfl | h3
      · rcases hcond with h4 | h4
        · exact absurd h4 hby
        · exact Or.inl h4
      · exact Or.inr h3
  | case3 c rest st cb hskip nn st2 hmem =>
    rename_i ih
    intro h
    rw [markLoop, dif_neg hskip]
    simp only [dif_pos hmem]
    apply ih
    intro x hbx hpx y hy hby
    rcases Finset.mem_insert.mp hpx with h2 | h2
    · have hxc : x = c := hinj x c hbx h2
      subst hxc
      exact Or.inr (List.mem_append.mpr (Or.inl hy))
    · rcases h x hbx h2 y hy hby with h3 | h3
      · exact Or.inl (Finset.mem_insert_of_mem h3)
      · rcases List.mem_cons.mp h3 with rfl | h4
        · exact Or.inl (Finset.mem_insert_self _ _)
        · exact Or.inr (List.mem_append.mpr (Or.inr h4))
  | case4 c rest st cb hskip nn st2 hmem =>
    intro h
    rcases hall c with h4 | h4
    · exact absurd (Or.inl h4) hskip
    · exact absurd h4 hmem

/-- Helper: one seeding step only grows the processed set. -/
theorem seedStep_processed_mono (snap : DOMSnapshot) (doc : DocumentSnapshot)
    (cm : Nat → List Nat) (allIds : Finset Nat) (st : PtrSt) (i : Nat) :
    st.processed ⊆ (seedStep snap doc cm allIds st i).processed := by
  simp only [seedStep]
  split
  · exact fun k hk => hk
  · split
    · exact fun k hk => hk
    · intro k hk
      apply markLoop_processed_mono
      exact Finset.mem_insert_of_mem hk

/-- Helper: the seeding fold only grows the processed set. -/
theorem seedFold_processed_mono (snap : DOMSnapshot) (doc : DocumentSnapshot)
    (cm : Nat → List Nat) (allIds : Finset Nat) :
    ∀ (l : List Nat) (st : PtrSt),
      st.processed ⊆ (l.foldl (seedStep snap doc cm allIds) st).processed := by
  intro l
  induction l with
  | nil => exact fun st k hk => hk
  | cons j l2 ih =>
    intro st k hk
    exact ih _ (seedStep_processed_mono snap doc cm allIds st j hk)

/-- Helper: one seeding step preserves "every processed id has a map entry". -/
theorem seedStep_domok (snap : DOMSnapshot) (doc : DocumentSnapshot)
    (cm : Nat → List Nat) (allIds : Finset Nat) (st : PtrSt) (i : Nat) (h : DomOk st) :
    DomOk (seedStep snap doc cm allIds st i) := by
  simp only [seedStep]
  split
  · exact h
  · split
    · exact h
    · apply markLoop_domok
      intro k hk
      show (if k = doc.nodes.backendNodeId.getD (doc.layout.nodeIndex.getD i 0) 0 then _
        else st.ptr k) ≠ none
      split
      · simp
      · rename_i hne
        rcases Finset.mem_insert.mp hk with h2 | h2
        · exact absurd h2 hne
        · exact h k h2

/-- Helper: the seeding fold preserves "every processed id has a map entry". -/
theorem seedFold_domok (snap : DOMSnapshot) (doc : DocumentSnapshot)
    (cm : Nat → List Nat) (allIds : Finset Nat) :
    ∀ (l : List Nat) (st : PtrSt),
      DomOk st → DomOk (l.foldl (seedStep snap doc cm allIds) st) := by
  intro l
  induction l with
  | nil => exact fun st h => h
  | cons j l2 ih =>
    intro st h
    exact ih _ (seedStep_domok snap doc cm allIds st j h)

/-- Helper: one seeding step preserves child-closure of the processed set. -/
theorem seedStep_closed (snap : DOMSnapshot) (doc : DocumentSnapshot)
    (cm : Nat → List Nat) (allIds : Finset Nat) (hinj : BidInj doc.nodes)
    (hall : ∀ x, bidOf doc.nodes x = 0 ∨ bidOf doc.nodes x ∈ allIds)
    (st : PtrSt) (i : Nat) (h : PtrClosed doc.nodes cm st.processed []) :
    PtrClosed doc.nodes cm (seedStep snap doc cm allIds st i).processed [] := by
  simp only [seedStep]
  split
  · exact h
  · split
    · exact h
    · apply markLoop_closed doc.nodes snap.strings cm allIds hinj hall
      intro x hbx hpx y hy hby
      rcases Finset.mem_insert.mp hpx with h2 | h2
      · have hxn : x = doc.layout.nodeIndex.getD i 0 :=
          hinj x (doc.layout.nodeIndex.getD i 0) hbx h2
        subst hxn
        exact Or.inr hy
      · rcases h x hbx h2 y hy hby with h3 | h3
        · exact Or.inl (Finset.mem_insert_of_mem h3)
        · exact absurd h3 (List.not_mem_nil y)

/-- Helper: the seeding fold preserves child-closure of the processed set. -/
theorem seedFold_closed (snap : DOMSnapshot) (doc : DocumentSnapshot)
    (cm : Nat → List Nat) (allIds : Finset Nat) (hinj : BidInj doc.nodes)
    (hall : ∀ x, bidOf doc.nodes x = 0 ∨ bidOf doc.nodes x ∈ allIds) :
    ∀ (l : List Nat) (st : PtrSt),
      PtrClosed doc.nodes cm st.processed [] →
      PtrClosed doc.nodes cm (l.foldl (seedStep snap doc cm allIds) st).processed [] := by
  intro l
  induction l with
  | nil => exact fun st h => h
  | cons j l2 ih =>
    intro st h
    exact ih _ (seedStep_closed snap doc cm allIds hinj hall st j h)

/-- Helper: a pointer-styled layout entry with a truthy backend id puts that
backend id into the processed set of the seeding fold. -/
theorem seedFold_seed_mem (snap : DOMSnapshot) (doc : DocumentSnapshot)
    (cm : Nat → List Nat) (allIds : Finset Nat) (a : Nat) :
    ∀ (l : List Nat) (st : PtrSt),
      (∃ i ∈ l,
        ((doc.layout.styles.getD i []).get? 0).bind (fun k => snap.strings.get? k) =
          some (("pointer")) ∧
        doc.layout.nodeIndex.getD i 0 = a ∧ bidOf doc.nodes a ≠ 0) →
      bidOf doc.nodes a ∈ (l.foldl (seedStep snap doc cm allIds) st).processed := by
  intro l
  induction l with
  | nil =>
    rintro st ⟨i, hi, _⟩
    exact absurd hi (List.not_mem_nil i)
  | cons j l2 ih =>
    rintro st ⟨i, hi, hsty, hidx, hbid⟩
    rcases List.mem_cons.mp hi with rfl | hmem
    · show bidOf doc.nodes a ∈
        (l2.foldl (seedStep snap doc cm allIds) (seedStep snap doc cm allIds st i)).processed
      apply seedFold_processed_mono
      simp only [seedStep]
      rw [if_neg (not_not_intro hsty)]
      rw [hidx]
      rw [if_neg (show doc.nodes.backendNodeId.getD a 0 ≠ 0 from hbid)]
      apply markLoop_processed_mono
      exact Finset.mem_insert_self _ _
    · exact ih _ ⟨i, hmem, hsty, hidx, hbid⟩

/-- Helper: injectivity of nonzero backend ids follows from its bounded form
(indices past the column read as `0`). -/
theorem bidInj_of_bounded (nodes : NodeTreeSnapshot)
    (h : ∀ i, i < nodes.backendNodeId.length → ∀ j, j < nodes.backendNodeId.length →
      bidOf nodes i ≠ 0 → bidOf nodes i = bidOf nodes j → i = j) :
    BidInj nodes := by
  intro i j hi hij
  by_cases h1 : i < nodes.backendNodeId.length
  · by_cases h2 : j < nodes.backendNodeId.length
    · exact h i h1 j h2 hi hij
    · exfalso
      apply hi
      rw [hij]
      exact List.getD_eq_default _ 0 (le_of_not_lt h2)
  · exfalso
    exact hi (List.getD_eq_default _ 0 (le_of_not_lt h1))

/-- Helper: every backend id read through `getD` is `0` or in the universe of
backend ids of a single-document snapshot. -/
theorem bid_mem_allIds (doc : DocumentSnapshot) (strings : List String) :
    ∀ x, bidOf doc.nodes x = 0 ∨ bidOf doc.nodes x ∈ allBackendIds ⟨[doc], strings⟩ := by
  intro x
  by_cases h1 : x < doc.nodes.backendNodeId.length
  · right
    unfold allBackendIds bidOf
    rw [List.mem_toFinset]
    have hget : doc.nodes.backendNodeId.getD x 0 = doc.nodes.backendNodeId[x] :=
      List.getD_eq_getElem _ 0 h1
    rw [hget]
    have hmem : doc.nodes.backendNodeId[x] ∈ doc.nodes.backendNodeId :=
      List.getElem_mem h1
    simpa using hmem
  · left
    exact List.getD_eq_default _ 0 (le_of_not_lt h1)

/-- C2: cursor-pointer propagation is transitive: on a single-document
snapshot whose nonzero backend ids are injective (the well-formedness
invariant of a capture), a layout entry `i` whose first computed style is
`pointer` over a node `a` with a truthy backend id forces entries in the
returned map for the backend ids of `a`, of any DOM child `b` of `a`, and of
any DOM grandchild `c` — even when only `a` carries the pointer style; and the
computation is total, terminating even when the parent links form a cycle
(exhibited by the witness on `cyclicPointerSnapshot`). -/
theorem cursor_pointer_propagation (doc : DocumentSnapshot) (strings : List String)
    (a b c i : Nat)
    (hinj : ∀ p, p < doc.nodes.backendNodeId.length →
      ∀ q, q < doc.nodes.backendNodeId.length →
      bidOf doc.nodes p ≠ 0 → bidOf doc.nodes p = bidOf doc.nodes q → p = q)
    (hi : i ∈ List.range doc.layout.nodeIndex.length)
    (hsty : ((doc.layout.styles.getD i []).get? 0).bind (fun k => strings.get? k) =
      some (("pointer")))
    (hidx : doc.layout.nodeIndex.getD i 0 = a)
    (hbida : bidOf doc.nodes a ≠ 0)
    (hb : b ∈ buildSharedChildrenMap [doc] a) (hbidb : bidOf doc.nodes b ≠ 0)
    (hc : c ∈ buildSharedChildrenMap [doc] b) (hbidc : bidOf doc.nodes c ≠ 0) :
    findCursorPointerNodes ⟨[doc], strings⟩ (bidOf doc.nodes a) ≠ none ∧
    findCursorPointerNodes ⟨[doc], strings⟩ (bidOf doc.nodes b) ≠ none ∧
    findCursorPointerNodes ⟨[doc], strings⟩ (bidOf doc.nodes c) ≠ none := by
  have hinj2 : BidInj doc.nodes := bidInj_of_bounded doc.nodes hinj
  have hall := bid_mem_allIds doc strings
  set snap : DOMSnapshot := ⟨[doc], strings⟩ with hsnap
  set cm := buildSharedChildrenMap [doc] with hcm
  set allIds := allBackendIds snap with hallIds
  set F := (List.range doc.layout.nodeIndex.length).foldl (seedStep snap doc cm allIds)
    (⟨fun _ => none, ∅⟩ : PtrSt) with hF
  have hfcp : findCursorPointerNodes snap = F.ptr := rfl
  have hdom : DomOk F := by
    rw [hF]
    apply seedFold_domok
    intro k hk
    exact absurd hk (Finset.not_mem_empty k)
  have hclosed : PtrClosed doc.nodes cm F.processed [] := by
    rw [hF]
    apply seedFold_closed snap doc cm allIds hinj2 hall
    intro x hbx hpx
    exact absurd hpx (Finset.not_mem_empty _)
  have hamem : bidOf doc.nodes a ∈ F.processed := by
    rw [hF]
    apply seedFold_seed_mem
    exact ⟨i, hi, hsty, hidx, hbida⟩
  have hbmem : bidOf doc.nodes b ∈ F.processed := by
    rcases hclosed a hbida hamem b hb hbidb with h2 | h2
    · exact h2
    · exact absurd h2 (List.not_mem_nil b)
  have hcmem : bidOf doc.nodes c ∈ F.processed := by
    rcases hclosed b hbidb hbmem c hc hbidc with h2 | h2
    · exact h2
    · exact absurd h2 (List.not_mem_nil c)
  rw [hfcp]
  exact ⟨hdom _ hamem, hdom _ hbmem, hdom _ hcmem⟩

/-- C2 witness: on the concrete snapshot whose parent links form the cycle
`1 → 2 → 3 → 1` and where only node 1 (backend id 10) carries the pointer
style, the computation terminates and the backend ids 10, 20 and 30 of the
node, its child and its grandchild are all in the returned map. -/
theorem cursor_pointer_propagation_witness :
    findCursorPointerNodes cyclicPointerSnapshot 10 ≠ none ∧
    findCursorPointerNodes cyclicPointerSnapshot 20 ≠ none ∧
    findCursorPointerNodes cyclicPointerSnapshot 30 ≠ none :=
  cursor_pointer_propagation cyclicPointerDoc cyclicStrings 1 2 3 0
    (by decide) (by decide) (by decide) (by decide) (by decide)
    (by decide) (by decide) (by decide) (by decide)
